import Mathlib

/-!
Verification development for the ccproxy gateway.

This file gives a shallow embedding of the core of the gateway:
the Anthropic-SSE-to-OpenAI-SSE streaming translator
(`src/streaming.ts`, `createAnthropicToOpenAIStream` and
`handleNonStreamingResponse`), the request preparer
(`src/openai-adapter.ts`, the thinking-configuration block of
`openaiToAnthropic`, `injectCompaction`, `anthropicToOpenai`), the
dispatcher (`src/anthropic-client.ts`, `makeClaudeCodeRequestWithOAuth`,
`makeDirectApiRequest`, `proxyRequest`) and the credential refresh path
(`src/oauth.ts`, `withFileLock`, `refreshToken`, `doRefreshToken`).

Modelling conventions:
  - JavaScript strings are `List Char`; identifiers and short tags are
    Lean `String`s.
  - Logging (`console.log`, `logger.verbose`) is I/O with no effect on
    the data flow and is not modelled.
  - `Date.now()` readings are supplied by an explicit clock oracle.
  - External pure collaborators that the specification places out of
    scope (the JSON event parse, the legacy-tag parser
    `parseXMLToolCalls` and the legacy-tag rewriter `translateToolCalls`)
    are parameters of the model, bundled in `Collab` / `StreamEnv`.
  - Truthiness tests on strings and numbers (`if (x)`) are modelled
    explicitly: the empty string and the number 0 are falsy.
-/

namespace Ccproxy

/-! Basic character and string utilities shared by the embedding. -/

/-- The newline character, on which `buffer.split("\n")` splits. -/
def nlChar : Char := '\n'

/-- Lower-casing of a JavaScript string, used to model the `i` flag of
the regular expressions in `streaming.ts` and `tool-call-translator.ts`. -/
def lcList (s : List Char) : List Char := s.map Char.toLower

/-- First index at which `pat` occurs as a contiguous sublist of `l`
(JavaScript `String.indexOf`), `none` when absent. -/
def findSubstr (pat : List Char) : List Char → Option Nat
  | [] => if pat.isEmpty then some 0 else none
  | c :: rest =>
    if pat.isPrefixOf (c :: rest) then some 0
    else (findSubstr pat rest).map (· + 1)

/-- JavaScript `hay.includes(needle)` / `/needle/.test(hay)` for a literal
pattern. -/
def containsSub (hay pat : List Char) : Bool := (findSubstr pat hay).isSome

/-- Case-insensitive containment, modelling `/pat/i.test(hay)` for a
literal lower-case pattern. -/
def containsSubCI (hay : List Char) (pat : String) : Bool :=
  containsSub (lcList hay) pat.toList

/-- JavaScript `errorMessage.includes(sub)` on `String`s. -/
def jsIncludes (s sub : String) : Bool := containsSub s.toList sub.toList

/-! The split-on-newline primitive of the stream line buffer:
`buffer.split("\n")` returns all (possibly empty) segments; the result is
never empty. -/

/-- `splitNl s` models `s.split("\n")` of JavaScript. -/
def splitNl : List Char → List (List Char)
  | [] => [[]]
  | c :: cs =>
    if c = nlChar then [] :: splitNl cs
    else
      match splitNl cs with
      | h :: t => (c :: h) :: t
      | [] => [[c]]

/-! The event-level data model of the upstream SSE stream
(`createAnthropicToOpenAIStream`, src/streaming.ts). -/

/-- The fields of `event.content_block` that the translator reads. -/
structure ContentBlockInfo where
  btype : String
  id : String
  name : String
  text : Option (List Char)
  deriving DecidableEq

/-- The fields of `event.delta` that the translator reads.  `text` is
`event.delta.text` (absent or empty string is falsy), `partialJson` is
`event.delta.partial_json`. -/
structure DeltaInfo where
  dtype : String
  text : Option (List Char)
  partialJson : Option String
  deriving DecidableEq

/-- The closed union of upstream SSE events dispatched on `event.type`.
`messageStart` carries `event.message?.usage?.input_tokens`,
`messageDelta` carries `event.usage?.output_tokens`; `other` stands for
any unrecognized event type, which the loop ignores. -/
inductive AnthropicEvent where
  | messageStart (inputTokens : Option Nat)
  | contentBlockStart (block : Option ContentBlockInfo)
  | contentBlockStop
  | contentBlockDelta (delta : DeltaInfo)
  | messageDelta (outputTokens : Option Nat)
  | messageStop
  | other
  deriving DecidableEq

/-- One downstream SSE frame, as produced through `safeEnqueue`:
the role-start chunk (`createOpenAIStreamStart`), a content chunk
(`createOpenAIStreamChunk` with a content argument), a finish-reason
chunk, tool-call chunks (`createOpenAIToolCallChunk`), the usage chunk
(`createOpenAIStreamUsageChunk`) and the literal `data: [DONE]` frame. -/
inductive StreamFrame where
  | start
  | content (text : List Char)
  | finish (reason : String)
  | toolCallStart (index : Nat) (id : String) (name : String)
  | toolCallArgs (index : Nat) (args : String)
  | usage (promptTokens : Nat) (completionTokens : Nat)
  | done
  deriving DecidableEq

/-- The active tool-call accumulator (`currentToolCall` in the stream
closure). -/
structure ToolCallState where
  id : String
  name : String
  inputJson : String
  deriving DecidableEq

/-- The per-stream mutable state of `createAnthropicToOpenAIStream`
(everything except the line buffer and the cancellation flag, which live
at the chunk-processing layer). -/
structure StState where
  sentStart : Bool
  toolCallBuffer : List Char
  inToolCall : Bool
  lastChunkTime : Nat
  toolCallIndex : Nat
  streamInputTokens : Nat
  streamOutputTokens : Nat
  compactionOccurred : Bool
  currentToolCall : Option ToolCallState
  deriving DecidableEq

/-- The state at stream open. `lastChunkTime` is initialised from the
clock by the caller of the model; the witness instances use 0. -/
def initStState : StState :=
  { sentStart := false
    toolCallBuffer := []
    inToolCall := false
    lastChunkTime := 0
    toolCallIndex := 0
    streamInputTokens := 0
    streamOutputTokens := 0
    compactionOccurred := false
    currentToolCall := none }

/-- One structured tool call as returned by the external legacy-tag
parser; `argsJson` is `JSON.stringify(tc.arguments)`, the form in which
the arguments are emitted downstream. -/
structure ParsedCall where
  name : String
  argsJson : String
  deriving DecidableEq

/-- The external pure collaborators consumed by the translator
(spec section 6): the legacy-tag rewriter `translateToolCalls` and the
legacy-tag parser `parseXMLToolCalls`, both consumed as pure functions. -/
structure Collab where
  translateToolCalls : List Char → List Char
  parseXMLToolCalls : List Char → List ParsedCall

/-- The per-stream options of `createAnthropicToOpenAIStream` that the
claims depend on: the pre-dispatch token estimate (`originalTokenCount`,
computed by `countTokens` before `proxyRequest` in the route handler) and
the `tokenInflationEnabled` configuration flag read at `message_stop`. -/
structure StreamOpts where
  originalTokenCount : Nat
  tokenInflationEnabled : Bool

/-- The ambient environment of the stream processing loop: options,
collaborators, the clock oracle for `Date.now()` (indexed by the ordinal
of the line or event being processed) and the JSON event parse
(`JSON.parse` plus the dynamic field reads), which returns `none` on a
parse error (the loop logs and skips such lines). -/
structure StreamEnv where
  opts : StreamOpts
  co : Collab
  clock : Nat → Nat
  parseEvent : List Char → Option AnthropicEvent

/-! Legacy tool-call tag detection, translated from the text-delta branch
of `createAnthropicToOpenAIStream` (src/streaming.ts lines 339-461) and
from `needsTranslation` (src/tool-call-translator.ts). -/

/-- `hasToolCallMarkers` of the text-delta branch: the disjunction of the
ten case-insensitive literal tests on the chunk. -/
def hasToolCallMarkers (t : List Char) : Bool :=
  containsSubCI t "<function_calls" || containsSubCI t "<invoke" ||
  containsSubCI t "</invoke>" || containsSubCI t "</function_calls>" ||
  containsSubCI t "<search_files" || containsSubCI t "<read_file" ||
  containsSubCI t "</search_files>" || containsSubCI t "</read_file>" ||
  containsSubCI t "<grep>" || containsSubCI t "</grep>"

/-- The partial-tag tests of `mightStartToolCall` (without the
`!inToolCall` conjunct, which the caller supplies). -/
def mightStartToolCallMarkers (t : List Char) : Bool :=
  containsSubCI t "<search_f" || containsSubCI t "<read_f" ||
  containsSubCI t "<grep" || containsSubCI t "<invoke" ||
  containsSubCI t "<function_c"

/-- Index of the first match of `/<[a-z]/i` in the chunk: a `<`
immediately followed by an ASCII letter. -/
def firstTagIdx : List Char → Option Nat
  | c1 :: c2 :: rest =>
    if c1 = '<' && c2.isAlpha then some 0
    else (firstTagIdx (c2 :: rest)).map (· + 1)
  | _ => none

/-- The alternatives of the open-tag pattern
`/<(search_files|read_file|grep|invoke|function_calls)/i`, in the order
the regular expression tries them at a given position. -/
def openTagNames : List String :=
  ["search_files", "read_file", "grep", "invoke", "function_calls"]

/-- Case-insensitive match of the open-tag pattern at the head of `buf`;
returns the matched tag text in its original case (the regular
expression's first capture group). -/
def matchOpenTagAt (buf : List Char) : Option (List Char) :=
  match buf with
  | c :: rest =>
    if c = '<' then
      (openTagNames.find? fun tag => tag.toList.isPrefixOf (lcList rest)).map
        fun tag => rest.take tag.length
    else none
  | [] => none

/-- Leftmost match of the open-tag pattern in `buf`: position and the
captured tag text. -/
def findOpenTag : List Char → Option (Nat × List Char)
  | [] => none
  | c :: rest =>
    match matchOpenTagAt (c :: rest) with
    | some m => some (0, m)
    | none => (findOpenTag rest).map fun p => (p.1 + 1, p.2)

/-- The complete-tool-call check of the buffering branch: find the open
tag, build `closeTag` from the captured tag text, and search for it
(case-sensitively, `indexOf`) from the open tag's position.  Returns
(`completeToolCall`, `remainingBuffer`) exactly when the code's
`completeToolCall` is non-empty. -/
def findCompleteToolCall (buf : List Char) : Option (List Char × List Char) :=
  match findOpenTag buf with
  | none => none
  | some (oidx, tagName) =>
    let closeTag := ['<', '/'] ++ tagName ++ ['>']
    match (findSubstr closeTag (buf.drop oidx)).map (· + oidx) with
    | none => none
    | some cidx =>
      let endIdx := cidx + closeTag.length
      some ((buf.drop oidx).take (endIdx - oidx), buf.drop endIdx)

/-- JavaScript `\s` on the ASCII range, for the whitespace in
`/<parameter\s+name=.../i`. -/
def isJsWs (c : Char) : Bool :=
  c = ' ' || c = '\t' || c = nlChar || c = '\r' ||
  c = Char.ofNat 11 || c = Char.ofNat 12

/-- The four alternative words of the bad-parameter-name pattern of
`needsTranslation`. -/
def badParamWords : List String := ["path", "file", "filepath", "filename"]

/-- Match of `/<parameter\s+name=["'](path|file|filepath|filename)["']>/i`
at the head of the (already lower-cased) list `l`. -/
def matchBadParamAt (l : List Char) : Bool :=
  if ("<parameter").toList.isPrefixOf l then
    let r1 := l.drop 10
    if (r1.takeWhile isJsWs).isEmpty then false
    else
      let r2 := r1.dropWhile isJsWs
      if ("name=").toList.isPrefixOf r2 then
        match r2.drop 5 with
        | q :: r3 =>
          (q = '"' || q = Char.ofNat 39) &&
          badParamWords.any fun w =>
            w.toList.isPrefixOf r3 &&
            match r3.drop w.length with
            | q2 :: g :: _ => (q2 = '"' || q2 = Char.ofNat 39) && g = '>'
            | _ => false
        | [] => false
      else false
  else false

/-- Does `p` hold at some suffix of `l` (i.e. does the pattern match at
some position)? -/
def anyTail (p : List Char → Bool) : List Char → Bool
  | [] => p []
  | c :: rest => p (c :: rest) || anyTail p rest

/-- `needsTranslation` (src/tool-call-translator.ts): detects legacy
tool-call syntax that the rewriter must fix before text is forwarded. -/
def needsTranslation (t : List Char) : Bool :=
  let l := lcList t
  containsSub l ("<function_calls").toList ||
  containsSub l ("</function_calls>").toList ||
  anyTail matchBadParamAt l ||
  containsSub l ("<search_files").toList ||
  containsSub l ("<read_file").toList ||
  containsSub l ("</search_files>").toList ||
  containsSub l ("</read_file>").toList ||
  containsSub l ("<grep>").toList ||
  containsSub l ("</grep>").toList

/-! The per-event dispatch of `createAnthropicToOpenAIStream`,
translated branch by branch (src/streaming.ts lines 142-692). -/

/-- Emit the role-start chunk once, gated by the `sentStart` flag
(checked at `message_start`, `content_block_start` and the first text
delta). -/
def ensureStart (st : StState) : StState × List StreamFrame :=
  if st.sentStart then (st, [])
  else ({st with sentStart := true}, [StreamFrame.start])

/-- `message_start` handling: guarded by `!sentStart`; captures
`input_tokens` when truthy, then emits the role-start chunk. -/
def handleMessageStart (inputTokens : Option Nat) (st : StState) :
    StState × List StreamFrame :=
  if st.sentStart then (st, [])
  else
    let st1 :=
      match inputTokens with
      | some n => if n ≠ 0 then {st with streamInputTokens := n} else st
      | none => st
    ({st1 with sentStart := true}, [StreamFrame.start])

/-- `content_block_start` handling: role-start chunk if not yet sent,
then branch on `block?.type`.  Thinking and redacted-thinking blocks are
skipped (logged only); compaction blocks set the flag and are skipped
(content arrives via `compaction_delta`); `tool_use` opens the
accumulator and emits the tool-call-start chunk; anything else (text
blocks included) emits nothing here. -/
def handleBlockStart (block : Option ContentBlockInfo) (st : StState) :
    StState × List StreamFrame :=
  let p := ensureStart st
  let st1 := p.1
  match block with
  | none => (st1, p.2)
  | some b =>
    if b.btype = "thinking" ∨ b.btype = "redacted_thinking" then (st1, p.2)
    else if b.btype = "compaction" then
      ({st1 with compactionOccurred := true}, p.2)
    else if b.btype = "tool_use" then
      ({st1 with currentToolCall := some ⟨b.id, b.name, ""⟩},
        p.2 ++ [StreamFrame.toolCallStart st1.toolCallIndex b.id b.name])
    else (st1, p.2)

/-- `content_block_stop` handling: finalize the active accumulator,
emitting an empty-arguments chunk when no argument fragment ever
arrived, and advance the tool-call index. -/
def handleBlockStop (st : StState) : StState × List StreamFrame :=
  match st.currentToolCall with
  | none => (st, [])
  | some tc =>
    let fs :=
      if tc.inputJson = "" then
        [StreamFrame.toolCallArgs st.toolCallIndex ("\x7b\x7d")]
      else []
    ({st with toolCallIndex := st.toolCallIndex + 1, currentToolCall := none},
      fs)

/-- Tool-call id `call_${Date.now()}_${i}` used when legacy tags are
re-emitted as structured calls. -/
def legacyCallId (now i : Nat) : String :=
  "call_" ++ toString now ++ "_" ++ toString i

/-- Emission of the parsed legacy tool calls: for each call, a
tool-call-start chunk then an arguments chunk, advancing the index. -/
def emitParsedCalls (now : Nat) : Nat → Nat → List ParsedCall → List StreamFrame
  | _, _, [] => []
  | idx, i, pc :: rest =>
    StreamFrame.toolCallStart idx (legacyCallId now i) pc.name ::
    StreamFrame.toolCallArgs idx pc.argsJson ::
    emitParsedCalls now (idx + 1) (i + 1) rest

/-- The text-delta branch (src/streaming.ts lines 320-576): legacy-tag
buffering, complete-call extraction and re-emission, heartbeat on a
still-incomplete buffer, and the plain passthrough with the safety
rewrite. -/
def handleTextDelta (env : StreamEnv) (now : Nat) (t : List Char)
    (st : StState) : StState × List StreamFrame :=
  let p := ensureStart st
  let st0 := p.1
  let fs0 := p.2
  let has := hasToolCallMarkers t
  let might := (!st0.inToolCall) && mightStartToolCallMarkers t
  if has || st0.inToolCall || might then
    let q :=
      if (!st0.inToolCall) && (might || has) then
        match firstTagIdx t with
        | some idx =>
          let before := t.take idx
          let part := t.drop idx
          ({st0 with inToolCall := true, toolCallBuffer := part},
            if before = [] then [] else [StreamFrame.content before])
        | none =>
          ({st0 with inToolCall := true, toolCallBuffer := st0.toolCallBuffer ++ t}, [])
      else
        ({st0 with inToolCall := true, toolCallBuffer := st0.toolCallBuffer ++ t}, [])
    let st1 := q.1
    let fs1 := q.2
    match findCompleteToolCall st1.toolCallBuffer with
    | some (complete, remaining) =>
      let st2 := {st1 with toolCallBuffer := remaining, inToolCall := if remaining = [] then false else st1.inToolCall}
      let parsed := env.co.parseXMLToolCalls complete
      if parsed = [] then
        (st2, fs0 ++ fs1 ++ [StreamFrame.content complete])
      else
        ({st2 with toolCallIndex := st2.toolCallIndex + parsed.length},
          fs0 ++ fs1 ++ emitParsedCalls now st2.toolCallIndex 0 parsed)
    | none =>
      if 5000 < now - st1.lastChunkTime then
        ({st1 with lastChunkTime := now},
          fs0 ++ fs1 ++ [StreamFrame.content []])
      else (st1, fs0 ++ fs1)
  else
    let t2 := if needsTranslation t then env.co.translateToolCalls t else t
    ({st0 with lastChunkTime := now}, fs0 ++ [StreamFrame.content t2])

/-- The `content_block_delta` chain after the `input_json_delta` branch:
compaction deltas set the flag and are only logged, thinking deltas are
only logged, signature deltas are skipped, and a truthy `delta.text`
enters the text branch. -/
def handleNonToolDelta (env : StreamEnv) (now : Nat) (d : DeltaInfo)
    (st : StState) : StState × List StreamFrame :=
  if d.dtype = "compaction_delta" then
    ({st with compactionOccurred := true}, [])
  else if d.dtype = "thinking_delta" then (st, [])
  else if d.dtype = "signature_delta" then (st, [])
  else
    match d.text with
    | some t => if t = [] then (st, []) else handleTextDelta env now t st
    | none => (st, [])

/-- `content_block_delta` handling: `input_json_delta` with an active
accumulator appends and forwards the fragment; otherwise the chain of
the remaining delta kinds runs. -/
def handleContentBlockDelta (env : StreamEnv) (now : Nat) (d : DeltaInfo)
    (st : StState) : StState × List StreamFrame :=
  if d.dtype = "input_json_delta" then
    match st.currentToolCall with
    | some tc =>
      let chunk := d.partialJson.getD ""
      let st1 := {st with currentToolCall := some {tc with inputJson := tc.inputJson ++ chunk}}
      (st1,
        if chunk = "" then []
        else [StreamFrame.toolCallArgs st.toolCallIndex chunk])
    | none => handleNonToolDelta env now d st
  else handleNonToolDelta env now d st

/-- `message_delta` handling: captures the running output-token count
when truthy; nothing is forwarded. -/
def handleMessageDelta (outputTokens : Option Nat) (st : StState) :
    StState × List StreamFrame :=
  match outputTokens with
  | some n => if n ≠ 0 then ({st with streamOutputTokens := n}, []) else (st, [])
  | none => (st, [])

/-- `Math.round(raw * (872000/200000))` with the inflation ratio as the
exact rational 109/25; JavaScript evaluates the product in binary
floating point, which yields the same integer at every value appearing
in this development. -/
def inflatePromptTokens (raw : Nat) : Nat := (raw * 109 * 2 + 25) / 50

/-- The prompt-token figure of the final usage chunk: the pre-dispatch
estimate when positive, else the upstream-captured figure, then the
optional inflation factor. -/
def reportedPromptTokens (opts : StreamOpts) (streamInputTokens : Nat) : Nat :=
  let raw :=
    if 0 < opts.originalTokenCount then opts.originalTokenCount
    else streamInputTokens
  if opts.tokenInflationEnabled then inflatePromptTokens raw else raw

/-- `message_stop` handling: flush the legacy-tag buffer (parse, else
emit as plain text), emit the finish-reason chunk, the usage chunk and
the `[DONE]` terminator. -/
def handleMessageStop (env : StreamEnv) (now : Nat) (st : StState) :
    StState × List StreamFrame :=
  let p :=
    if st.toolCallBuffer = [] then (st, ([] : List StreamFrame))
    else
      let parsed := env.co.parseXMLToolCalls st.toolCallBuffer
      if parsed = [] then
        ({st with toolCallBuffer := [], inToolCall := false},
          [StreamFrame.content st.toolCallBuffer])
      else
        ({st with toolCallBuffer := [], inToolCall := false, toolCallIndex := st.toolCallIndex + parsed.length},
          emitParsedCalls now st.toolCallIndex 0 parsed)
  let st1 := p.1
  let finishReason := if 0 < st1.toolCallIndex then "tool_calls" else "stop"
  (st1,
    p.2 ++
    [StreamFrame.finish finishReason,
     StreamFrame.usage (reportedPromptTokens env.opts st1.streamInputTokens)
       st1.streamOutputTokens,
     StreamFrame.done])

/-- The full per-event dispatch of the translator loop. -/
def processEvent (env : StreamEnv) (now : Nat) (ev : AnthropicEvent)
    (st : StState) : StState × List StreamFrame :=
  match ev with
  | .messageStart it => handleMessageStart it st
  | .contentBlockStart b => handleBlockStart b st
  | .contentBlockStop => handleBlockStop st
  | .contentBlockDelta d => handleContentBlockDelta env now d st
  | .messageDelta ot => handleMessageDelta ot st
  | .messageStop => handleMessageStop env now st
  | .other => (st, [])

/-- Processing of a logical event sequence (clock readings indexed from
`i`), used to state event-level properties. -/
def processEvents (env : StreamEnv) : StState → Nat → List AnthropicEvent →
    StState × List StreamFrame
  | st, _, [] => (st, [])
  | st, i, ev :: evs =>
    let p := processEvent env (env.clock i) ev st
    let q := processEvents env p.1 (i + 1) evs
    (q.1, p.2 ++ q.2)

/-! The chunk/line layer of the translator: the rolling line buffer, the
hold-back of the final incomplete line, the `data: ` framing, and the
cooperative cancellation flag (src/streaming.ts lines 96-131 and
`safeEnqueue`).  The cancellation flag is set by the downstream `cancel`
callback; `safeEnqueue` drops every write once it is set, and the read
loop exits. -/

/-- The line-level state: the event-processing state, the cancellation
flag, and the ordinal of the next line (the index into the clock
oracle). -/
structure StreamCore where
  st : StState
  cancelled : Bool
  linesProcessed : Nat
  deriving DecidableEq

/-- Processing of one complete line: skipped when cancelled, skipped
when the line does not start with `data: `; the `[DONE]` payload is
forwarded verbatim; otherwise the payload is parsed as JSON and the
event dispatched (a parse failure is logged and skipped). -/
def processLine (env : StreamEnv) (core : StreamCore) (line : List Char) :
    StreamCore × List StreamFrame :=
  let now := env.clock core.linesProcessed
  let core1 := {core with linesProcessed := core.linesProcessed + 1}
  if core.cancelled then (core1, [])
  else if !(("data: ").toList.isPrefixOf line) then (core1, [])
  else
    let payload := line.drop 6
    if payload = ("[DONE]").toList then (core1, [StreamFrame.done])
    else
      match env.parseEvent payload with
      | none => (core1, [])
      | some ev =>
        let p := processEvent env now ev core.st
        ({core1 with st := p.1}, p.2)

/-- Processing of a list of complete lines in order. -/
def runLines (env : StreamEnv) : StreamCore → List (List Char) →
    StreamCore × List StreamFrame
  | core, [] => (core, [])
  | core, l :: ls =>
    let p := processLine env core l
    let q := runLines env p.1 ls
    (q.1, p.2 ++ q.2)

/-- The chunk-layer state: the rolling text buffer plus the core. -/
structure ProcState where
  lineBuffer : List Char
  core : StreamCore
  deriving DecidableEq

/-- The state at stream open. -/
def initProcState : ProcState :=
  { lineBuffer := []
    core := { st := initStState, cancelled := false, linesProcessed := 0 } }

/-- One iteration of the read loop on a decoded chunk: append to the
buffer, split on newline, hold back the final (possibly incomplete)
line, process the complete lines.  When the cancellation flag is set the
loop breaks without touching anything. -/
def feedChunk (env : StreamEnv) (ps : ProcState) (chunk : List Char) :
    ProcState × List StreamFrame :=
  if ps.core.cancelled then (ps, [])
  else
    let parts := splitNl (ps.lineBuffer ++ chunk)
    let p := runLines env ps.core parts.dropLast
    ({lineBuffer := parts.getLastD [], core := p.1}, p.2)

/-- The whole read loop over a chunked byte stream. -/
def feedChunks (env : StreamEnv) : ProcState → List (List Char) →
    ProcState × List StreamFrame
  | ps, [] => (ps, [])
  | ps, c :: cs =>
    let p := feedChunk env ps c
    let q := feedChunks env p.1 cs
    (q.1, p.2 ++ q.2)

/-! The non-streaming reshape (`anthropicToOpenai` in
src/openai-adapter.ts lines 574-625 and `handleNonStreamingResponse` in
src/streaming.ts lines 748-797). -/

/-- One content block of a complete upstream JSON response. -/
structure RespBlock where
  btype : String
  name : String
  text : List Char
  deriving DecidableEq

/-- The per-block mapping of `anthropicToOpenai`: text blocks keep their
text, compaction blocks map to `null` (and are then filtered out of the
join), tool-use blocks render as a placeholder, anything else as the
empty string. -/
def blockToText (b : RespBlock) : Option (List Char) :=
  if b.btype = "text" then some b.text
  else if b.btype = "compaction" then none
  else if b.btype = "tool_use" then
    some (("[Tool: ").toList ++ b.name.toList ++ [']'])
  else some []

/-- The assembled content string of the non-streaming reshape (before
the safety rewrite pass). -/
def anthropicToOpenaiContent (blocks : List RespBlock) : List Char :=
  (blocks.filterMap blockToText).flatten

/-- The usage triple of an OpenAI-shape response. -/
structure UsageInfo where
  promptTokens : Nat
  completionTokens : Nat
  totalTokens : Nat
  deriving DecidableEq

/-- The usage field produced by `anthropicToOpenai` from the upstream
response (`input_tokens`/`output_tokens`, 0 when absent). -/
def anthropicToOpenaiUsage (inputTokens outputTokens : Nat) : UsageInfo :=
  { promptTokens := inputTokens
    completionTokens := outputTokens
    totalTokens := inputTokens + outputTokens }

/-- The usage override of `handleNonStreamingResponse`: when the
pre-dispatch estimate is positive, the prompt-token figure becomes the
(optionally inflated) estimate and the total is recomputed; otherwise
the upstream-derived usage stands. -/
def handleNonStreamingUsage (tokenInflationEnabled : Bool)
    (originalTokenCount : Nat) (inputTokens outputTokens : Nat) : UsageInfo :=
  let u := anthropicToOpenaiUsage inputTokens outputTokens
  if 0 < originalTokenCount then
    let inflated :=
      if tokenInflationEnabled then inflatePromptTokens originalTokenCount
      else originalTokenCount
    { promptTokens := inflated
      completionTokens := u.completionTokens
      totalTokens := inflated + u.completionTokens }
  else u

/-! Compaction injection (`injectCompaction`, src/openai-adapter.ts
lines 518-571).  The request's `context_management.edits` list is
modelled as `Option (List ContextEdit)` (`none` when the request carries
no `context_management`); the function returns the updated list together
with the `injected` flag and the beta header. -/

/-- One context-management edit as the code reads and writes it. -/
structure ContextEdit where
  etype : String
  triggerTokens : Option Nat
  instructions : Option String
  deriving DecidableEq

/-- `ANTHROPIC_BETA_COMPACTION` (src/config.ts). -/
def ANTHROPIC_BETA_COMPACTION : String := "compact-2026-01-12"

/-- The custom compaction instructions injected by `injectCompaction`. -/
def compactionInstructions : String :=
  "Write a detailed summary of this conversation that will replace the full history. You MUST include:\n1. The user\x27s LATEST message/question/request — reproduce it verbatim or near-verbatim. This is critical because the model must respond to it after compaction.\n2. Key context: what project/codebase is being discussed, what files were modified, what decisions were made.\n3. Any active task or pending work the user is waiting on.\n4. Important technical details, error messages, or code snippets that are needed to continue.\nWrap your summary in a <summary></summary> block."

/-- The compaction edit appended by `injectCompaction`, carrying the
configured token-count trigger and the custom instructions. -/
def mkCompactionEdit (triggerTokens : Nat) : ContextEdit :=
  { etype := "compact_20260112"
    triggerTokens := some triggerTokens
    instructions := some compactionInstructions }

/-- The `ORDER` map of `injectCompaction`: unknown edit types get 99. -/
def editOrderKey (e : ContextEdit) : Nat :=
  if e.etype = "clear_thinking_20251015" then 0
  else if e.etype = "clear_tool_uses_20250919" then 1
  else if e.etype = "compact_20260112" then 2
  else 99

/-- The comparator `(ORDER[a.type] ?? 99) - (ORDER[b.type] ?? 99)` of the
final `edits.sort`, as a boolean order. -/
def editOrderLe (a b : ContextEdit) : Bool := editOrderKey a ≤ editOrderKey b

/-- The result record `{ injected, betaHeader }` plus the (mutated)
edit list. -/
structure CompactionInjectionResult where
  contextEdits : Option (List ContextEdit)
  injected : Bool
  betaHeader : Option String
  deriving DecidableEq

/-- `injectCompaction` (src/openai-adapter.ts lines 518-571): gated by
the feature flag and the 4.6 minor-version threshold; ensures the edit
list exists; skips when a `compact_20260112` edit is already present;
otherwise appends the compaction edit and sorts the list into the
API-required order. -/
def injectCompaction (compactionEnabled : Bool)
    (compactionTriggerTokens : Nat) (minorVersion : Option Nat)
    (contextEdits : Option (List ContextEdit)) : CompactionInjectionResult :=
  let isOpus46 := 6 ≤ minorVersion.getD 0
  if !compactionEnabled || !isOpus46 then
    { contextEdits := contextEdits, injected := false, betaHeader := none }
  else
    let edits := contextEdits.getD []
    if edits.any fun e => e.etype = "compact_20260112" then
      { contextEdits := some edits, injected := false,
        betaHeader := some ANTHROPIC_BETA_COMPACTION }
    else
      let edits2 := edits ++ [mkCompactionEdit compactionTriggerTokens]
      { contextEdits := some (edits2.mergeSort editOrderLe), injected := true,
        betaHeader := some ANTHROPIC_BETA_COMPACTION }

/-! Reasoning configuration (the extended-thinking block of
`openaiToAnthropic`, src/openai-adapter.ts lines 449-501).  The block is
modelled as a transformation of the relevant fields of the partially
built Anthropic request; `normalized.reasoningBudget` and
`normalized.minorVersion` come from `normalizeModelName`. -/

/-- The `tool_choice` field as the block reads it (`{ type: ... }`). -/
structure ToolChoiceInfo where
  ttype : String
  deriving DecidableEq

/-- The thinking configuration written by the block. -/
inductive ThinkingConfig where
  | adaptive
  | enabled (budgetTokens : Nat)
  deriving DecidableEq

/-- The fields of the Anthropic request that the thinking block reads or
mutates.  `temperature`, `topP` and `topK` only matter by presence, so
their values are opaque to the model. -/
structure ThinkingReqFields where
  maxTokens : Nat
  temperature : Option Int
  topP : Option Int
  topK : Option Int
  stream : Option Bool
  toolChoice : Option ToolChoiceInfo
  thinking : Option ThinkingConfig
  deriving DecidableEq

/-- The `budgetMap` of the legacy enabled-thinking path; `none` stands
for the `"max"` sentinel, which resolves to `max_tokens - 1`. -/
def thinkingBudgetRaw (budget : String) : Option Nat :=
  if budget = "max" then none
  else if budget = "high" then some 50000
  else if budget = "medium" then some 20000
  else if budget = "low" then some 5000
  else none

/-- The version-gated thinking mode and output-token floor of the
extended-thinking block: adaptive mode with the 128000 floor for 4.6+,
explicit budget (the `max` tier resolving to one less than the floored
max output tokens) with the 64000 floor below 4.6. -/
def bumpForThinking (supportsAdaptive : Bool) (budget : String)
    (r : ThinkingReqFields) : ThinkingReqFields :=
  if supportsAdaptive then
    let r0 : ThinkingReqFields :=
      if r.maxTokens < 128000 then {r with maxTokens := 128000} else r
    {r0 with thinking := some ThinkingConfig.adaptive}
  else
    let r0 : ThinkingReqFields :=
      if r.maxTokens < 64000 then {r with maxTokens := 64000} else r
    let budgetTokens :=
      match thinkingBudgetRaw budget with
      | none => r0.maxTokens - 1
      | some n => n
    {r0 with thinking := some (ThinkingConfig.enabled budgetTokens)}

/-- Removal of the sampling parameters the upstream API forbids when
thinking is enabled (`delete result.temperature/top_k/top_p`). -/
def stripSampling (r : ThinkingReqFields) : ThinkingReqFields :=
  {r with temperature := none, topK := none, topP := none}

/-- Coercion of a tool choice incompatible with thinking (neither auto
nor none) to auto. -/
def coerceToolChoice (r : ThinkingReqFields) : ThinkingReqFields :=
  match r.toolChoice with
  | some tc =>
    if tc.ttype ≠ "auto" ∧ tc.ttype ≠ "none" then
      {r with toolChoice := some { ttype := "auto" }}
    else r
  | none => r

/-- Forcing `stream: true` when the resulting max output tokens exceeds
21333 and streaming is not already truthy. -/
def forceStream (r : ThinkingReqFields) : ThinkingReqFields :=
  if decide (21333 < r.maxTokens) && !(r.stream.getD false) then
    {r with stream := some true}
  else r

/-- The extended-thinking block of `openaiToAnthropic`
(src/openai-adapter.ts lines 449-501), as the sequence of mutations the
code performs; a `none` reasoning budget leaves the request untouched. -/
def applyThinkingConfig (reasoningBudget : Option String)
    (minorVersion : Option Nat) (r : ThinkingReqFields) : ThinkingReqFields :=
  match reasoningBudget with
  | none => r
  | some budget =>
    forceStream (coerceToolChoice (stripSampling
      (bumpForThinking (decide (6 ≤ minorVersion.getD 0)) budget r)))

/-! The dispatcher (`src/anthropic-client.ts`): the subscription-first
auth ladder with API-key fallback.  The two `fetch` calls are modelled by
explicit outcomes: either an HTTP response with a status code (for 400,
together with the parsed `error.message`) or a transport exception. -/

/-- Outcome of one upstream `fetch`: an HTTP response with its status
code and, for a 400 body, the parsed `error.message` (empty when the
body could not be parsed); or a thrown transport error. -/
inductive FetchOutcome where
  | status (code : Nat) (errorMessage : String)
  | netError (message : String)
  deriving DecidableEq

/-- The auth tier that served a successful request (`source` of
`RequestResult`). -/
inductive AuthSource where
  | claude_code
  | api_key
  deriving DecidableEq

/-- `RequestResult` of src/anthropic-client.ts: a successful tier returns
the upstream response (kept here as its status code); a failed tier
returns an error string and the fallback-eligibility flag. -/
inductive RequestResult where
  | success (source : AuthSource) (status : Nat)
  | failure (error : String) (shouldFallback : Bool)
  deriving DecidableEq

/-- Side effects of the primary attempt on the module-level caches:
clearing the cached OAuth token (on 401) and populating the rate-limit
window (on 429 with a parseable reset). -/
structure DispatchEffects where
  clearedToken : Bool
  cachedRateLimit : Bool
  deriving DecidableEq

/-- No cache effects. -/
def noEffects : DispatchEffects :=
  { clearedToken := false, cachedRateLimit := false }

/-- The inputs of the primary (subscription-auth) attempt: the cached
rate-limit window state, the OAuth token from `getValidToken`, the fetch
outcome, and the reset timestamp parsed from the 429 response headers
(`retry-after` / `x-ratelimit-reset`), when present. -/
structure PrimaryInput where
  rateLimited : Bool
  token : Option String
  out : FetchOutcome
  rateLimitResetAt : Option Int

/-- The 400 error-message marker for an OAuth token that is not usable
on the direct API path. -/
def notAuthorizedMarker : String := "only authorized for use with Claude Code"

/-- `makeClaudeCodeRequestWithOAuth` (src/anthropic-client.ts lines
119-267): short-circuits on the cached rate limit and on a missing
token; classifies 429, 401, 403 and 400 responses as fallback-eligible
failures (400 with the known marker gets the dedicated error string);
any other status — 200 included — is a success returning the response;
a transport error is a fallback-eligible failure. -/
def makeClaudeCodeRequestWithOAuth (inp : PrimaryInput) :
    RequestResult × DispatchEffects :=
  if inp.rateLimited then
    (RequestResult.failure "Rate limited (cached)" true, noEffects)
  else
    match inp.token with
    | none => (RequestResult.failure "No valid OAuth token" true, noEffects)
    | some _ =>
      match inp.out with
      | FetchOutcome.netError e => (RequestResult.failure e true, noEffects)
      | FetchOutcome.status code msg =>
        if code = 429 then
          (RequestResult.failure "Rate limited" true,
            {noEffects with cachedRateLimit := inp.rateLimitResetAt.isSome})
        else if code = 401 then
          (RequestResult.failure "OAuth token invalid" true,
            {noEffects with clearedToken := true})
        else if code = 403 then
          (RequestResult.failure "Permission denied" true, noEffects)
        else if code = 400 then
          if jsIncludes msg notAuthorizedMarker then
            (RequestResult.failure "OAuth not authorized for API" true,
              noEffects)
          else
            (RequestResult.failure (if msg = "" then "Bad request" else msg)
              true, noEffects)
        else (RequestResult.success AuthSource.claude_code code, noEffects)

/-- `makeDirectApiRequest` (src/anthropic-client.ts lines 277-305): every
HTTP response of any status is returned as-is as a success; only a
transport exception yields a failure, and it is not fallback-eligible. -/
def makeDirectApiRequest (out : FetchOutcome) : RequestResult :=
  match out with
  | FetchOutcome.status code _ => RequestResult.success AuthSource.api_key code
  | FetchOutcome.netError e => RequestResult.failure e false

/-- What `proxyRequest` hands back to the route handler: the upstream
response of the serving tier, or a locally constructed typed error
envelope (`type`, HTTP status). -/
inductive FinalResponse where
  | upstream (source : AuthSource) (status : Nat)
  | errorEnvelope (etype : String) (httpStatus : Nat)
  deriving DecidableEq

/-- The observable result of one dispatch: the response, whether the
API-key fallback tier was attempted, and the cache effects of the
primary attempt. -/
structure DispatchResult where
  response : FinalResponse
  fallbackAttempted : Bool
  effects : DispatchEffects
  deriving DecidableEq

/-- `proxyRequest` (src/anthropic-client.ts lines 307-411): with
`claudeCodeFirst`, try the subscription tier; return its response on
success; on a non-fallback-eligible failure return the 500 `api_error`
envelope; otherwise fall back to the direct-key tier when a key exists
(caller-supplied over configured), returning its response or its 500
`api_error` envelope; with no key, the 401 `authentication_error`
envelope.  Without `claudeCodeFirst`, the direct-key tier alone, or the
401 envelope when no key is configured. -/
def proxyRequest (claudeCodeFirst : Bool) (configApiKey : Option String)
    (userAPIKey : Option String) (inp : PrimaryInput)
    (fallbackOut : FetchOutcome) : DispatchResult :=
  if claudeCodeFirst then
    let p := makeClaudeCodeRequestWithOAuth inp
    match p.1 with
    | RequestResult.success src status =>
      { response := FinalResponse.upstream src status,
        fallbackAttempted := false, effects := p.2 }
    | RequestResult.failure _ shouldFallback =>
      if !shouldFallback then
        { response := FinalResponse.errorEnvelope "api_error" 500,
          fallbackAttempted := false, effects := p.2 }
      else
        match userAPIKey.orElse fun _ => configApiKey with
        | none =>
          { response := FinalResponse.errorEnvelope "authentication_error" 401,
            fallbackAttempted := false, effects := p.2 }
        | some _ =>
          match makeDirectApiRequest fallbackOut with
          | RequestResult.success src status =>
            { response := FinalResponse.upstream src status,
              fallbackAttempted := true, effects := p.2 }
          | RequestResult.failure _ _ =>
            { response := FinalResponse.errorEnvelope "api_error" 500,
              fallbackAttempted := true, effects := p.2 }
  else
    match configApiKey with
    | some _ =>
      match makeDirectApiRequest fallbackOut with
      | RequestResult.success src status =>
        { response := FinalResponse.upstream src status,
          fallbackAttempted := true, effects := noEffects }
      | RequestResult.failure _ _ =>
        { response := FinalResponse.errorEnvelope "api_error" 500,
          fallbackAttempted := true, effects := noEffects }
    | none =>
      { response := FinalResponse.errorEnvelope "authentication_error" 401,
        fallbackAttempted := false, effects := noEffects }

/-- The fallback-eligible primary HTTP statuses named by the spec: 429,
401, 403, and 400 with the known not-usable-with-this-auth-mode
substring. -/
def fallbackEligibleStatus (out : FetchOutcome) : Bool :=
  match out with
  | FetchOutcome.status code msg =>
    code = 429 || code = 401 || code = 403 ||
    (code = 400 && jsIncludes msg notAuthorizedMarker)
  | FetchOutcome.netError _ => false

/-! The credential refresh path (`src/oauth.ts`). -/

/-- `isTokenExpired` (src/oauth.ts lines 248-251): a 5-minute safety
buffer ahead of the real expiry. -/
def isTokenExpired (now expiresAt : Int) : Bool := expiresAt - 300000 ≤ now

/-- `LOCK_MAX_RETRIES` of the credentials file lock. -/
def LOCK_MAX_RETRIES : Nat := 50

/-- The message of the error thrown when the lock wait is exhausted. -/
def lockTimeoutMessage : String :=
  "Could not acquire credentials lock after 5s — another process may be stuck"

/-- `withFileLock` (src/oauth.ts lines 134-152), over an acquisition
oracle giving the result of `acquireLock()` at each retry: the loop
makes up to `LOCK_MAX_RETRIES` attempts on the fixed 100ms interval and
throws the lock-timeout error when all fail; on success it runs the
body (whose outcome, possibly itself a thrown error, is `body`) and
releases the lock unconditionally. -/
def withFileLock (acquire : Nat → Bool)
    (body : Except String (Option (String × String × Int))) :
    Except String (Option (String × String × Int)) :=
  match (List.range LOCK_MAX_RETRIES).find? (fun i => acquire i) with
  | some _ => body
  | none => Except.error lockTimeoutMessage

/-- `refreshToken` (src/oauth.ts lines 327-346), single caller view: the
`withFileLock (doRefreshToken ...)` promise with its `.catch` handler,
which logs any error — the lock timeout included — and resolves to
`null`.  `Except.error` would model a rejected promise reaching the
caller; the `.catch` makes that unreachable. -/
def refreshToken (acquire : Nat → Bool)
    (body : Except String (Option (String × String × Int))) :
    Except String (Option (String × String × Int)) :=
  match withFileLock acquire body with
  | Except.ok r => Except.ok r
  | Except.error _ => Except.ok none

/-! The multi-process refresh race (`doRefreshToken`, src/oauth.ts lines
256-320).  The cross-process lock serializes the processes; the
in-process single-flight mutex (`refreshInProgress`) collapses all
concurrent callers of one process onto the one pending result.  The
model runs the serialized sequence of per-process `doRefreshToken`
executions over the shared credentials store. -/

/-- The OAuth fields of the persisted credentials store
(`claudeAiOauth`). -/
structure OauthCreds where
  accessToken : String
  refreshToken : String
  expiresAt : Int
  deriving DecidableEq

/-- The in-memory token produced by a refresh (`TokenInfo` without the
constant `isExpired := false` field). -/
structure TokenInfoM where
  accessToken : String
  refreshToken : String
  expiresAt : Int
  deriving DecidableEq

/-- Outcome of one call of the token endpoint. -/
inductive TokenEndpointResult where
  | ok (accessToken : String) (refreshToken : String) (expiresIn : Int)
  | err
  deriving DecidableEq

/-- `doRefreshToken` (src/oauth.ts lines 256-320), run inside the lock:
re-read the store; adopt a non-expired credential directly with no
network call; otherwise adopt a differing stored refresh token, call the
token endpoint, compute the expiry, persist and return.  The result is
(store afterwards, token returned to the callers, whether the network
was called). -/
def doRefreshToken (now : Int) (net : TokenEndpointResult)
    (refreshTokenValue : String) (store : Option OauthCreds) :
    Option OauthCreds × Option TokenInfoM × Bool :=
  let networkCall := fun (_rtv : String) =>
    match net with
    | TokenEndpointResult.err => (store, (none : Option TokenInfoM), true)
    | TokenEndpointResult.ok a r e =>
      let expiresAt := now + e * 1000
      (some ⟨a, r, expiresAt⟩, some ⟨a, r, expiresAt⟩, true)
  match store with
  | some fresh =>
    if !(isTokenExpired now fresh.expiresAt) then
      (store, some ⟨fresh.accessToken, fresh.refreshToken, fresh.expiresAt⟩,
        false)
    else
      let rtv :=
        if fresh.refreshToken ≠ refreshTokenValue then fresh.refreshToken
        else refreshTokenValue
      networkCall rtv
  | none => networkCall refreshTokenValue

/-- Outcome of the serialized race: the final store, the token each
caller of each process ends with, and the system-wide number of token
endpoint calls. -/
structure RaceOutcome where
  store : Option OauthCreds
  results : List (List (Option TokenInfoM))
  networkCalls : Nat
  deriving DecidableEq

/-- The serialized refresh race: one `doRefreshToken` execution per
process (the single-flight mutex shares its result among that process's
callers), processes ordered by lock acquisition, all using the same
initially read refresh token value. -/
def runRefreshRace (now : Int) (net : TokenEndpointResult) (rt0 : String) :
    Option OauthCreds → List Nat → RaceOutcome
  | store, [] => { store := store, results := [], networkCalls := 0 }
  | store, callers :: rest =>
    let p := doRefreshToken now net rt0 store
    let q := runRefreshRace now net rt0 p.1 rest
    { store := q.store
      results := List.replicate callers p.2.1 :: q.results
      networkCalls := (if p.2.2 then 1 else 0) + q.networkCalls }

/-! Predicates on frames and events used to state the claims, and
concrete instantiations of the external collaborators for the closed
witness and counterexample statements. -/

/-- Is this frame a content chunk (a downstream text fragment)? -/
def isContentFrame : StreamFrame → Bool
  | StreamFrame.content _ => true
  | _ => false

/-- Is this frame the final usage chunk? -/
def isUsageFrame : StreamFrame → Bool
  | StreamFrame.usage _ _ => true
  | _ => false

/-- The upstream events whose content the translator must suppress: a
`content_block_start` of type thinking, redacted_thinking or compaction,
a `thinking_delta`, or a `compaction_delta`. -/
def isSuppressedEvent : AnthropicEvent → Bool
  | AnthropicEvent.contentBlockStart (some b) =>
    b.btype = "thinking" || b.btype = "redacted_thinking" ||
    b.btype = "compaction"
  | AnthropicEvent.contentBlockDelta d =>
    d.dtype = "thinking_delta" || d.dtype = "compaction_delta"
  | _ => false

/-- Is this `RequestResult` a fallback-eligible failure
(`success: false, shouldFallback: true`)? -/
def isFallbackEligibleFailure : RequestResult → Bool
  | RequestResult.failure _ true => true
  | _ => false

/-- A trivial instance of the external collaborators, used only to close
witness and counterexample statements whose evaluation paths never reach
the collaborators. -/
def plainCollab : Collab :=
  { translateToolCalls := fun t => t
    parseXMLToolCalls := fun _ => [] }

/-- A stream environment over `plainCollab` with the given options, a
constant-zero clock and a parse oracle that recognizes nothing. -/
def plainEnv (opts : StreamOpts) : StreamEnv :=
  { opts := opts
    co := plainCollab
    clock := fun _ => 0
    parseEvent := fun _ => none }

/-- A parse oracle recognizing the two literal payloads used by the
chunking-invariance witness. -/
def witnessParse (payload : List Char) : Option AnthropicEvent :=
  if payload = ("S").toList then some AnthropicEvent.messageStop
  else if payload = ("T").toList then
    some (AnthropicEvent.contentBlockDelta
      { dtype := "text_delta", text := some (("hi").toList),
        partialJson := none })
  else none

/-- The environment of the chunking-invariance witness. -/
def witnessEnv : StreamEnv :=
  { opts := { originalTokenCount := 7, tokenInflationEnabled := false }
    co := plainCollab
    clock := fun _ => 0
    parseEvent := witnessParse }

/-- The event sequence showing that processing continues after
`message_stop`: a `message_stop` followed by a late text delta. -/
def lateTextEvents : List AnthropicEvent :=
  [AnthropicEvent.messageStop,
   AnthropicEvent.contentBlockDelta
     { dtype := "text_delta", text := some (("x").toList),
       partialJson := none }]

/-- One chunking of the witness upstream byte stream. -/
def witnessChunksA : List (List Char) :=
  [("data: S\ndata: T\n").toList]

/-- Another chunking of the same bytes, split mid-frame. -/
def witnessChunksB : List (List Char) :=
  [("data: S\nd").toList, ("ata: ").toList, ("T\n").toList]

/-- A tool-use-clearing edit used by the compaction-injection witness. -/
def sampleClearEdit : ContextEdit :=
  { etype := "clear_tool_uses_20250919", triggerTokens := none,
    instructions := none }

/-- The request fields used by the reasoning-configuration
counterexample: a `tool_choice` of type `none` with sampling parameters
set. -/
def noneToolChoiceReq : ThinkingReqFields :=
  { maxTokens := 4096
    temperature := some 1
    topP := some 1
    topK := some 1
    stream := none
    toolChoice := some { ttype := "none" }
    thinking := none }

/-- The request fields used by the reasoning-configuration witness: a
required tool choice and a small max-token value on a 4.5 model. -/
def witnessThinkingReq : ThinkingReqFields :=
  { maxTokens := 4096
    temperature := some 1
    topP := none
    topK := none
    stream := none
    toolChoice := some { ttype := "any" }
    thinking := none }

/-! Theorems.  Helper lemmas come first, then one theorem per claim
(with its witness or counterexample where required). -/

/-- A fallback-eligible primary status makes the primary attempt a
fallback-eligible failure. -/
theorem makeClaudeCode_failure_of_eligible (inp : PrimaryInput)
    (hRL : inp.rateLimited = false) (hTok : inp.token.isSome = true)
    (helig : fallbackEligibleStatus inp.out = true) :
    isFallbackEligibleFailure (makeClaudeCodeRequestWithOAuth inp).1 = true := by
  obtain ⟨rl, tok, out, reset⟩ := inp
  simp only at hRL hTok
  subst hRL
  obtain ⟨t, rfl⟩ := Option.isSome_iff_exists.mp hTok
  cases out with
  | netError e => simp [fallbackEligibleStatus] at helig
  | status code msg =>
    simp only [fallbackEligibleStatus, Bool.or_eq_true, Bool.and_eq_true,
      decide_eq_true_eq] at helig
    simp only [makeClaudeCodeRequestWithOAuth, Bool.false_eq_true, if_false]
    rcases helig with ((h | h) | h) | ⟨h, hmsg⟩
    · subst h; rfl
    · subst h; rfl
    · subst h; rfl
    · subst h
      simp only [if_pos hmsg]
      split <;> rfl

/-- When the primary attempt is a fallback-eligible failure and a key is
available, the fallback tier is attempted. -/
theorem proxy_fallback_of_failure (configApiKey userAPIKey : Option String)
    (inp : PrimaryInput) (fallbackOut : FetchOutcome)
    (hfail : isFallbackEligibleFailure (makeClaudeCodeRequestWithOAuth inp).1
      = true)
    (hkey : (userAPIKey.orElse fun _ => configApiKey).isSome = true) :
    (proxyRequest true configApiKey userAPIKey inp fallbackOut).fallbackAttempted
      = true := by
  obtain ⟨k, hk⟩ := Option.isSome_iff_exists.mp hkey
  cases hres : (makeClaudeCodeRequestWithOAuth inp).1 with
  | success src status => rw [hres] at hfail; simp [isFallbackEligibleFailure] at hfail
  | failure e sf =>
    cases sf with
    | false => rw [hres] at hfail; simp [isFallbackEligibleFailure] at hfail
    | true =>
      simp only [proxyRequest, if_true, hres, hk]
      cases fallbackOut <;> simp [makeDirectApiRequest]

/-- C3: for a primary attempt answered with 429, 401, 403, or a 400
carrying the known not-usable-with-this-auth-mode substring, the
dispatcher attempts the API-key fallback whenever a caller-supplied or
configured key exists; it never attempts fallback after a 200 primary
response; and a fallback attempt only ever follows a fallback-eligible
primary failure. -/
theorem c3_dispatcher_fallback_ladder (configApiKey userAPIKey : Option String)
    (inp : PrimaryInput) (fallbackOut : FetchOutcome)
    (hRL : inp.rateLimited = false) (hTok : inp.token.isSome = true) :
    (fallbackEligibleStatus inp.out = true →
      (userAPIKey.orElse fun _ => configApiKey).isSome = true →
      (proxyRequest true configApiKey userAPIKey inp fallbackOut).fallbackAttempted
        = true)
    ∧ (∀ msg, inp.out = FetchOutcome.status 200 msg →
      (proxyRequest true configApiKey userAPIKey inp fallbackOut).fallbackAttempted
        = false)
    ∧ ((proxyRequest true configApiKey userAPIKey inp fallbackOut).fallbackAttempted
        = true →
      isFallbackEligibleFailure (makeClaudeCodeRequestWithOAuth inp).1 = true) := by
  refine ⟨?_, ?_, ?_⟩
  · intro helig hkey
    exact proxy_fallback_of_failure configApiKey userAPIKey inp fallbackOut
      (makeClaudeCode_failure_of_eligible inp hRL hTok helig) hkey
  · intro msg hout
    obtain ⟨rl, tok, out, reset⟩ := inp
    simp only at hRL hout
    subst hRL; subst hout
    obtain ⟨t, rfl⟩ := Option.isSome_iff_exists.mp hTok
    simp [proxyRequest, makeClaudeCodeRequestWithOAuth]
  · intro hfb
    cases hres : (makeClaudeCodeRequestWithOAuth inp).1 with
    | success src status =>
      exfalso
      simp [proxyRequest, hres] at hfb
    | failure e sf =>
      cases sf with
      | true => simp [isFallbackEligibleFailure]
      | false =>
        exfalso
        simp [proxyRequest, hres] at hfb

/-- Witness for the C3 theorem at a concrete 429 primary response with a
configured fallback key. -/
theorem c3_witness :
    (proxyRequest true (some ("sk-key")) none
      { rateLimited := false, token := some ("tok"),
        out := FetchOutcome.status 429 "", rateLimitResetAt := some 0 }
      (FetchOutcome.status 200 "")).fallbackAttempted = true := by
  have h := c3_dispatcher_fallback_ladder (some ("sk-key")) none
    { rateLimited := false, token := some ("tok"),
      out := FetchOutcome.status 429 "", rateLimitResetAt := some 0 }
    (FetchOutcome.status 200 "") (by decide) (by decide)
  exact h.1 (by decide) (by decide)

/-- C10: a primary HTTP response whose status is none of 200, 400, 401,
403, 429 (e.g. 500 or 529) is classified as a success and returned
directly with no fallback attempt; on the fallback path every HTTP
response of any status is returned as-is, and only a transport
exception yields the typed 500 `api_error` envelope. -/
theorem c10_unlisted_status_is_success (code : Nat) (msg t : String)
    (reset : Option Int) (configApiKey userAPIKey : Option String)
    (fallbackOut : FetchOutcome)
    (h200 : code ≠ 200) (h400 : code ≠ 400) (h401 : code ≠ 401)
    (h403 : code ≠ 403) (h429 : code ≠ 429) :
    (makeClaudeCodeRequestWithOAuth
        { rateLimited := false, token := some t,
          out := FetchOutcome.status code msg, rateLimitResetAt := reset }).1
      = RequestResult.success AuthSource.claude_code code
    ∧ (proxyRequest true configApiKey userAPIKey
        { rateLimited := false, token := some t,
          out := FetchOutcome.status code msg, rateLimitResetAt := reset }
        fallbackOut)
      = { response := FinalResponse.upstream AuthSource.claude_code code,
          fallbackAttempted := false, effects := noEffects }
    ∧ (∀ c m, makeDirectApiRequest (FetchOutcome.status c m)
        = RequestResult.success AuthSource.api_key c)
    ∧ (∀ e, makeDirectApiRequest (FetchOutcome.netError e)
        = RequestResult.failure e false)
    ∧ (∀ (inp2 : PrimaryInput) (e : String),
        isFallbackEligibleFailure (makeClaudeCodeRequestWithOAuth inp2).1 = true →
        (userAPIKey.orElse fun _ => configApiKey).isSome = true →
        (proxyRequest true configApiKey userAPIKey inp2
            (FetchOutcome.netError e)).response
          = FinalResponse.errorEnvelope "api_error" 500
        ∧ ∀ c m, (proxyRequest true configApiKey userAPIKey inp2
            (FetchOutcome.status c m)).response
          = FinalResponse.upstream AuthSource.api_key c) := by
  have hprim : (makeClaudeCodeRequestWithOAuth
      { rateLimited := false, token := some t,
        out := FetchOutcome.status code msg, rateLimitResetAt := reset }).1
      = RequestResult.success AuthSource.claude_code code := by
    simp [makeClaudeCodeRequestWithOAuth, h429, h401, h403, h400]
  refine ⟨hprim, ?_, ?_, ?_, ?_⟩
  · have hpair : makeClaudeCodeRequestWithOAuth
        { rateLimited := false, token := some t,
          out := FetchOutcome.status code msg, rateLimitResetAt := reset }
        = (RequestResult.success AuthSource.claude_code code, noEffects) := by
      simp [makeClaudeCodeRequestWithOAuth, h429, h401, h403, h400]
    simp [proxyRequest, hpair]
  · intro c m; rfl
  · intro e; rfl
  · intro inp2 e hfail hkey
    obtain ⟨k, hk⟩ := Option.isSome_iff_exists.mp hkey
    cases hres : (makeClaudeCodeRequestWithOAuth inp2).1 with
    | success src status =>
      rw [hres] at hfail; simp [isFallbackEligibleFailure] at hfail
    | failure e2 sf =>
      cases sf with
      | false => rw [hres] at hfail; simp [isFallbackEligibleFailure] at hfail
      | true =>
        constructor
        · simp [proxyRequest, hres, hk, makeDirectApiRequest]
        · intro c m
          simp [proxyRequest, hres, hk, makeDirectApiRequest]

/-- Witness for the C10 theorem at a 529 (overloaded) primary response. -/
theorem c10_witness :
    (proxyRequest true none none
      { rateLimited := false, token := some ("tok"),
        out := FetchOutcome.status 529 "", rateLimitResetAt := none }
      (FetchOutcome.status 200 ""))
    = { response := FinalResponse.upstream AuthSource.claude_code 529,
        fallbackAttempted := false, effects := noEffects } := by
  have h := c10_unlisted_status_is_success 529 "" ("tok") none none none
    (FetchOutcome.status 200 "") (by decide) (by decide) (by decide)
    (by decide) (by decide)
  exact h.2.1

/-- The edit comparator is transitive. -/
theorem editOrderLe_trans (a b c : ContextEdit)
    (hab : editOrderLe a b = true) (hbc : editOrderLe b c = true) :
    editOrderLe a c = true := by
  simp only [editOrderLe, decide_eq_true_eq] at *
  omega

/-- The edit comparator is total. -/
theorem editOrderLe_total (a b : ContextEdit) :
    (editOrderLe a b || editOrderLe b a) = true := by
  simp only [editOrderLe, Bool.or_eq_true, decide_eq_true_eq]
  omega

/-- C5: for a model at minor version 6 or above with the compaction flag
enabled, `injectCompaction` ensures the edit list exists and appends the
compaction edit carrying the configured trigger and the custom
instructions unless one is already present (in which case the list is
returned unchanged and nothing is injected), and the resulting list is a
permutation of the old list plus the new edit, sorted in the required
order (trace-clearing before tool-use-clearing before compaction); for a
model below the threshold or with the flag disabled, the request's
`context_management` is unchanged. -/
theorem c5_injectCompaction_spec (compactionEnabled : Bool)
    (compactionTriggerTokens : Nat) (minorVersion : Option Nat)
    (contextEdits : Option (List ContextEdit)) :
    ((compactionEnabled = false ∨ minorVersion.getD 0 < 6) →
      injectCompaction compactionEnabled compactionTriggerTokens minorVersion
          contextEdits
        = { contextEdits := contextEdits, injected := false, betaHeader := none })
    ∧ (compactionEnabled = true → 6 ≤ minorVersion.getD 0 →
      ((contextEdits.getD []).any fun e => e.etype = "compact_20260112") = true →
      injectCompaction compactionEnabled compactionTriggerTokens minorVersion
          contextEdits
        = { contextEdits := some (contextEdits.getD []), injected := false,
            betaHeader := some ANTHROPIC_BETA_COMPACTION })
    ∧ (compactionEnabled = true → 6 ≤ minorVersion.getD 0 →
      ((contextEdits.getD []).any fun e => e.etype = "compact_20260112") = false →
      (injectCompaction compactionEnabled compactionTriggerTokens minorVersion
          contextEdits).injected = true
      ∧ (injectCompaction compactionEnabled compactionTriggerTokens minorVersion
          contextEdits).betaHeader = some ANTHROPIC_BETA_COMPACTION
      ∧ ∃ l, (injectCompaction compactionEnabled compactionTriggerTokens
            minorVersion contextEdits).contextEdits = some l
        ∧ l.Perm
            (contextEdits.getD [] ++ [mkCompactionEdit compactionTriggerTokens])
        ∧ l.Pairwise fun a b => editOrderLe a b = true) := by
  refine ⟨?_, ?_, ?_⟩
  · intro h
    rcases h with h | h
    · subst h; simp [injectCompaction]
    · have : decide (6 ≤ minorVersion.getD 0) = false := by
        simp only [decide_eq_false_iff_not]; omega
      simp [injectCompaction, this]
  · intro hen hver hpresent
    subst hen
    simp [injectCompaction, hver, hpresent]
  · intro hen hver habsent
    subst hen
    refine ⟨?_, ?_, ?_⟩
    · simp [injectCompaction, hver, habsent]
    · simp [injectCompaction, hver, habsent]
    · refine ⟨(contextEdits.getD [] ++
        [mkCompactionEdit compactionTriggerTokens]).mergeSort editOrderLe,
        ?_, ?_, ?_⟩
      · simp [injectCompaction, hver, habsent]
      · exact List.mergeSort_perm _ _
      · exact List.sorted_mergeSort editOrderLe_trans editOrderLe_total _

/-- Witness for the C5 theorem: injection into a request carrying one
tool-use-clearing edit, on an eligible model with the flag enabled. -/
theorem c5_witness :
    (injectCompaction true 150000 (some 6) (some [sampleClearEdit])).injected
      = true
    ∧ (injectCompaction true 150000 (some 6)
        (some [sampleClearEdit])).contextEdits
      = some [sampleClearEdit, mkCompactionEdit 150000] := by
  have h := c5_injectCompaction_spec true 150000 (some 6)
    (some [sampleClearEdit])
  refine ⟨(h.2.2 rfl (by decide) (by decide)).1, ?_⟩
  have hs := @List.mergeSort_of_sorted ContextEdit editOrderLe
    [sampleClearEdit, mkCompactionEdit 150000] (by decide)
  rw [show (injectCompaction true 150000 (some 6)
      (some [sampleClearEdit])).contextEdits
    = some (([sampleClearEdit, mkCompactionEdit 150000]).mergeSort editOrderLe)
    from rfl, hs]

/-- `forceStream` only touches the `stream` field. -/
theorem forceStream_fields (r : ThinkingReqFields) :
    (forceStream r).temperature = r.temperature
    ∧ (forceStream r).topP = r.topP ∧ (forceStream r).topK = r.topK
    ∧ (forceStream r).toolChoice = r.toolChoice
    ∧ (forceStream r).maxTokens = r.maxTokens
    ∧ (forceStream r).thinking = r.thinking := by
  unfold forceStream
  split <;> simp

/-- After `forceStream`, streaming is truthy whenever the max-token
value exceeds the threshold. -/
theorem forceStream_stream (r : ThinkingReqFields)
    (h : 21333 < r.maxTokens) : (forceStream r).stream.getD false = true := by
  unfold forceStream
  split
  · simp
  · rename_i hcond
    simp only [Bool.and_eq_true, Bool.not_eq_true', decide_eq_true_eq,
      not_and] at hcond
    cases hs : r.stream.getD false
    · exact absurd (hcond h) (by simp [hs])
    · simp [hs]

/-- `coerceToolChoice` only touches the `toolChoice` field. -/
theorem coerceToolChoice_fields (r : ThinkingReqFields) :
    (coerceToolChoice r).temperature = r.temperature
    ∧ (coerceToolChoice r).topP = r.topP
    ∧ (coerceToolChoice r).topK = r.topK
    ∧ (coerceToolChoice r).stream = r.stream
    ∧ (coerceToolChoice r).maxTokens = r.maxTokens
    ∧ (coerceToolChoice r).thinking = r.thinking := by
  unfold coerceToolChoice
  rcases r.toolChoice with _ | tc
  · simp
  · dsimp only
    split <;> simp

/-- The tool-choice coercion: incompatible settings become auto, auto
and none are untouched. -/
theorem coerceToolChoice_toolChoice (r : ThinkingReqFields) :
    ((∀ tc, r.toolChoice = some tc → tc.ttype ≠ "auto" → tc.ttype ≠ "none" →
      (coerceToolChoice r).toolChoice = some { ttype := "auto" })
    ∧ (∀ tc, r.toolChoice = some tc → tc.ttype = "auto" ∨ tc.ttype = "none" →
      (coerceToolChoice r).toolChoice = some tc)) := by
  constructor
  · intro tc htc ha hn
    unfold coerceToolChoice
    rw [htc]
    simp [ha, hn]
  · intro tc htc h
    unfold coerceToolChoice
    rw [htc]
    rcases h with h | h <;> simp [h] <;> exact htc

/-- `bumpForThinking` fields: max tokens are floored at the version-gated
minimum, the thinking mode is written, everything else is untouched. -/
theorem bumpForThinking_fields (sa : Bool) (budget : String)
    (r : ThinkingReqFields) :
    (bumpForThinking sa budget r).temperature = r.temperature
    ∧ (bumpForThinking sa budget r).topP = r.topP
    ∧ (bumpForThinking sa budget r).topK = r.topK
    ∧ (bumpForThinking sa budget r).stream = r.stream
    ∧ (bumpForThinking sa budget r).toolChoice = r.toolChoice
    ∧ (bumpForThinking sa budget r).maxTokens
      = (if sa then max r.maxTokens 128000 else max r.maxTokens 64000)
    ∧ (bumpForThinking sa budget r).thinking
      = (if sa then some ThinkingConfig.adaptive
         else some (ThinkingConfig.enabled
           (match thinkingBudgetRaw budget with
            | none => max r.maxTokens 64000 - 1
            | some n => n))) := by
  unfold bumpForThinking
  cases sa
  · by_cases hm : r.maxTokens < 64000
    · simp [hm]
      constructor
      · omega
      · rcases thinkingBudgetRaw budget with _ | n <;> simp <;> omega
    · simp [hm]
      constructor
      · omega
      · rcases thinkingBudgetRaw budget with _ | n <;> simp
        have : max r.maxTokens 64000 = r.maxTokens := by omega
        rw [this]
  · by_cases hm : r.maxTokens < 128000
    · simp [hm]
      omega
    · simp [hm]
      omega

/-- C6 (amended): with reasoning enabled, temperature, top-p and top-k
are removed; a tool-choice setting other than auto or none is coerced to
auto (auto and none settings are left unchanged); streaming ends up
forced on whenever the resulting max output tokens exceeds 21333; models
below minor version 6 get an explicit budget mapped from the tier, with
the max tier resolving to one less than the (floored) max output tokens
and a 64000 output floor; models at minor version 6 or above get
adaptive thinking with a 128000 output floor. -/
theorem c6_thinking_configuration (budget : String)
    (minorVersion : Option Nat) (r : ThinkingReqFields) :
    (applyThinkingConfig (some budget) minorVersion r).temperature = none
    ∧ (applyThinkingConfig (some budget) minorVersion r).topP = none
    ∧ (applyThinkingConfig (some budget) minorVersion r).topK = none
    ∧ (∀ tc, r.toolChoice = some tc → tc.ttype ≠ "auto" → tc.ttype ≠ "none" →
      (applyThinkingConfig (some budget) minorVersion r).toolChoice
        = some { ttype := "auto" })
    ∧ (∀ tc, r.toolChoice = some tc → tc.ttype = "auto" ∨ tc.ttype = "none" →
      (applyThinkingConfig (some budget) minorVersion r).toolChoice = some tc)
    ∧ (21333 < (applyThinkingConfig (some budget) minorVersion r).maxTokens →
      (applyThinkingConfig (some budget) minorVersion r).stream.getD false
        = true)
    ∧ (minorVersion.getD 0 < 6 →
      (applyThinkingConfig (some budget) minorVersion r).maxTokens
        = max r.maxTokens 64000
      ∧ (applyThinkingConfig (some budget) minorVersion r).thinking
        = some (ThinkingConfig.enabled
            (match thinkingBudgetRaw budget with
             | none => max r.maxTokens 64000 - 1
             | some n => n)))
    ∧ (6 ≤ minorVersion.getD 0 →
      (applyThinkingConfig (some budget) minorVersion r).maxTokens
        = max r.maxTokens 128000
      ∧ (applyThinkingConfig (some budget) minorVersion r).thinking
        = some ThinkingConfig.adaptive) := by
  have hb := bumpForThinking_fields (decide (6 ≤ minorVersion.getD 0)) budget r
  set rb := bumpForThinking (decide (6 ≤ minorVersion.getD 0)) budget r with hrb
  have hc := coerceToolChoice_fields (stripSampling rb)
  set rc := coerceToolChoice (stripSampling rb) with hrc
  have hf := forceStream_fields rc
  have happ : applyThinkingConfig (some budget) minorVersion r = forceStream rc := rfl
  refine ⟨?_, ?_, ?_, ?_, ?_, ?_, ?_, ?_⟩
  · rw [happ, hf.1, hc.1]; rfl
  · rw [happ, hf.2.1, hc.2.1]; rfl
  · rw [happ, hf.2.2.1, hc.2.2.1]; rfl
  · intro tc htc ha hn
    rw [happ, hf.2.2.2.1]
    exact (coerceToolChoice_toolChoice (stripSampling rb)).1 tc
      (by rw [show (stripSampling rb).toolChoice = r.toolChoice from hb.2.2.2.2.1]; exact htc)
      ha hn
  · intro tc htc h
    rw [happ, hf.2.2.2.1]
    exact (coerceToolChoice_toolChoice (stripSampling rb)).2 tc
      (by rw [show (stripSampling rb).toolChoice = r.toolChoice from hb.2.2.2.2.1]; exact htc)
      h
  · intro hlt
    rw [happ] at hlt ⊢
    rw [hf.2.2.2.2.1] at hlt
    exact forceStream_stream rc hlt
  · intro hv
    have hd : decide (6 ≤ minorVersion.getD 0) = false :=
      decide_eq_false (by omega)
    constructor
    · rw [happ, hf.2.2.2.2.1, hc.2.2.2.2.1,
        show (stripSampling rb).maxTokens = rb.maxTokens from rfl,
        hb.2.2.2.2.2.1, hd]
      simp
    · rw [happ, hf.2.2.2.2.2, hc.2.2.2.2.2,
        show (stripSampling rb).thinking = rb.thinking from rfl,
        hb.2.2.2.2.2.2, hd]
      simp
  · intro hv
    have hd : decide (6 ≤ minorVersion.getD 0) = true := decide_eq_true hv
    constructor
    · rw [happ, hf.2.2.2.2.1, hc.2.2.2.2.1,
        show (stripSampling rb).maxTokens = rb.maxTokens from rfl,
        hb.2.2.2.2.2.1, hd]
      simp
    · rw [happ, hf.2.2.2.2.2, hc.2.2.2.2.2,
        show (stripSampling rb).thinking = rb.thinking from rfl,
        hb.2.2.2.2.2.2, hd]
      simp

/-- Counterexample to C6 as stated: a tool-choice setting of type
`none` differs from the safe default (auto) yet is not coerced — the
code coerces only settings that are neither auto nor none. -/
theorem c6_counterexample :
    (applyThinkingConfig (some ("high")) (some 6)
        noneToolChoiceReq).toolChoice = some { ttype := "none" }
    ∧ ({ ttype := "none" } : ToolChoiceInfo) ≠ { ttype := "auto" } := by
  constructor
  · rfl
  · decide

/-- Witness for the C6 theorem: a `max`-tier request on a 4.5 model with
an incompatible tool choice. -/
theorem c6_witness :
    (applyThinkingConfig (some ("max")) (some 5)
        witnessThinkingReq).toolChoice = some { ttype := "auto" }
    ∧ (applyThinkingConfig (some ("max")) (some 5)
        witnessThinkingReq).thinking
      = some (ThinkingConfig.enabled 63999) := by
  have h := c6_thinking_configuration "max" (some 5) witnessThinkingReq
  have h7 := h.2.2.2.2.2.2.1 (by decide)
  refine ⟨h.2.2.2.1 { ttype := "any" } rfl (by decide) (by decide), ?_⟩
  rw [h7.2]
  decide

/-- C7 (amended): when the lock cannot be acquired within the bounded
wait (`LOCK_MAX_RETRIES` attempts on the fixed interval), `withFileLock`
fails with the lock-timeout error — but `refreshToken` catches that
error and resolves to null, so the timeout is recovered locally into an
ordinary fallback-eligible refresh failure rather than surfacing to the
caller as a hard failure. -/
theorem c7_lock_timeout_recovered (acquire : Nat → Bool)
    (body : Except String (Option (String × String × Int)))
    (hfail : ∀ i, i < LOCK_MAX_RETRIES → acquire i = false) :
    withFileLock acquire body = Except.error lockTimeoutMessage
    ∧ refreshToken acquire body = Except.ok none := by
  have hfind : (List.range LOCK_MAX_RETRIES).find? (fun i => acquire i)
      = none := by
    rw [List.find?_eq_none]
    intro i hi
    simp [hfail i (List.mem_range.mp hi)]
  constructor
  · simp [withFileLock, hfind]
  · simp [refreshToken, withFileLock, hfind]

/-- Counterexample to C7 as stated: with the lock never acquired, the
refresh does not surface the lock-timeout error to its caller — the
returned promise resolves to null (`Except.ok none`), while the error
exists only inside `withFileLock`. -/
theorem c7_counterexample :
    withFileLock (fun _ => false) (Except.ok (some (("a"), ("r"), 0)))
      = Except.error lockTimeoutMessage
    ∧ refreshToken (fun _ => false) (Except.ok (some (("a"), ("r"), 0)))
      = Except.ok none
    ∧ (Except.ok (none : Option (String × String × Int))
        : Except String (Option (String × String × Int)))
      ≠ Except.error lockTimeoutMessage := by
  refine ⟨rfl, rfl, by simp⟩

/-- Witness for the amended C7 theorem with the always-failing
acquisition oracle. -/
theorem c7_witness :
    withFileLock (fun _ => false) (Except.ok none)
      = Except.error lockTimeoutMessage
    ∧ refreshToken (fun _ => false) (Except.ok none) = Except.ok none := by
  exact c7_lock_timeout_recovered (fun _ => false) (Except.ok none)
    (fun i _ => rfl)

/-- A non-expired store short-circuits every serialized refresh: no
network calls, every caller adopts the stored token, the store is
unchanged. -/
theorem runRefreshRace_fresh (now : Int) (net : TokenEndpointResult)
    (rt0 : String) (s : OauthCreds) (counts : List Nat)
    (hfresh : isTokenExpired now s.expiresAt = false) :
    (runRefreshRace now net rt0 (some s) counts).networkCalls = 0
    ∧ ((runRefreshRace now net rt0 (some s) counts).results.flatten.all
        fun res =>
          res = some ⟨s.accessToken, s.refreshToken, s.expiresAt⟩) = true
    ∧ (runRefreshRace now net rt0 (some s) counts).store = some s := by
  induction counts with
  | nil => simp [runRefreshRace]
  | cons c rest ih =>
    have hdo : doRefreshToken now net rt0 (some s)
        = (some s, some ⟨s.accessToken, s.refreshToken, s.expiresAt⟩, false) := by
      simp [doRefreshToken, hfresh]
    refine ⟨?_, ?_, ?_⟩
    · simp [runRefreshRace, hdo, ih.1]
    · simp only [runRefreshRace, hdo, List.flatten_cons, List.all_append]
      rw [ih.2.1]
      simp [List.all_eq_true, List.mem_replicate]
    · simp [runRefreshRace, hdo, ih.2.2]

/-- C8: for N serialized processes racing to refresh the same expired
credential (callers within one process sharing the single-flight
result), exactly one token-endpoint call occurs system-wide and every
caller of every process ends with the identical refreshed token.  The
hypothesis `300 < expiresIn` says the refreshed token outlives the
5-minute expiry buffer. -/
theorem c8_refresh_race_single_flight (now : Int) (a r rt0 : String)
    (expiresIn : Int) (s0 : OauthCreds) (counts : List Nat)
    (hexp : isTokenExpired now s0.expiresAt = true)
    (hlive : 300 < expiresIn) (hne : counts ≠ []) :
    (runRefreshRace now (TokenEndpointResult.ok a r expiresIn) rt0 (some s0)
        counts).networkCalls = 1
    ∧ ((runRefreshRace now (TokenEndpointResult.ok a r expiresIn) rt0
        (some s0) counts).results.flatten.all
        fun res => res = some ⟨a, r, now + expiresIn * 1000⟩) = true := by
  obtain ⟨c, rest, rfl⟩ : ∃ c rest, counts = c :: rest := by
    cases counts with
    | nil => exact absurd rfl hne
    | cons c rest => exact ⟨c, rest, rfl⟩
  have hdo : doRefreshToken now (TokenEndpointResult.ok a r expiresIn) rt0
      (some s0)
      = (some ⟨a, r, now + expiresIn * 1000⟩,
         some ⟨a, r, now + expiresIn * 1000⟩, true) := by
    simp only [doRefreshToken, hexp, Bool.not_true, Bool.false_eq_true,
      if_false]
  have hfresh : isTokenExpired now
      (⟨a, r, now + expiresIn * 1000⟩ : OauthCreds).expiresAt = false := by
    simp only [isTokenExpired, decide_eq_false_iff_not, not_le]
    omega
  have hrest := runRefreshRace_fresh now (TokenEndpointResult.ok a r expiresIn)
    rt0 ⟨a, r, now + expiresIn * 1000⟩ rest hfresh
  constructor
  · simp [runRefreshRace, hdo, hrest.1]
  · simp only [runRefreshRace, hdo, List.flatten_cons, List.all_append]
    rw [hrest.2.1]
    simp [List.all_eq_true, List.mem_replicate]

/-- Witness for the C8 theorem: three processes with 2, 1 and 3 callers,
an expired store, and a one-hour token lifetime. -/
theorem c8_witness :
    (runRefreshRace 1000000 (TokenEndpointResult.ok ("newA") ("newR") 3600)
        ("oldR") (some ⟨"oldA", "oldR", 0⟩) [2, 1, 3]).networkCalls = 1
    ∧ ((runRefreshRace 1000000 (TokenEndpointResult.ok ("newA") ("newR") 3600)
        ("oldR") (some ⟨"oldA", "oldR", 0⟩) [2, 1, 3]).results.flatten.all
        fun res => res = some ⟨"newA", "newR", 1000000 + 3600 * 1000⟩) = true := by
  exact c8_refresh_race_single_flight 1000000 "newA" "newR" "oldR" 3600
    ⟨"oldA", "oldR", 0⟩ [2, 1, 3] (by decide) (by decide) (by decide)

/-- Legacy tool-call re-emission produces no usage frames. -/
theorem emitParsedCalls_filter_isUsage (now : Nat) :
    ∀ (idx i : Nat) (L : List ParsedCall),
    (emitParsedCalls now idx i L).filter isUsageFrame = [] := by
  intro idx i L
  induction L generalizing idx i with
  | nil => rfl
  | cons pc rest ih => simp [emitParsedCalls, isUsageFrame, ih]

/-- C2 (amended): the final usage chunk emitted at `message_stop` (and
the non-streaming usage override) reports
`Math.round(estimate * factor)` where the factor is 872000/200000 when
the token-inflation flag is enabled and 1 otherwise — whenever the
pre-dispatch estimate is positive, the reported figure is derived from
the estimate alone (the upstream-captured input-token figure does not
enter), and with inflation disabled it equals the estimate exactly. -/
theorem c2_usage_reports_estimate :
    (∀ (env : StreamEnv) (now : Nat) (st : StState),
      0 < env.opts.originalTokenCount →
      ((processEvent env now AnthropicEvent.messageStop st).2.filter
          isUsageFrame)
        = [StreamFrame.usage
            (if env.opts.tokenInflationEnabled
             then inflatePromptTokens env.opts.originalTokenCount
             else env.opts.originalTokenCount)
            st.streamOutputTokens])
    ∧ (∀ (infl : Bool) (orig inTok outTok : Nat), 0 < orig →
      (handleNonStreamingUsage infl orig inTok outTok).promptTokens
        = (if infl then inflatePromptTokens orig else orig)) := by
  constructor
  · intro env now st h
    by_cases hbuf : st.toolCallBuffer = []
    · simp [processEvent, handleMessageStop, hbuf, isUsageFrame,
        reportedPromptTokens, h]
    · rcases hp : env.co.parseXMLToolCalls st.toolCallBuffer with _ | ⟨pc, rest⟩
      · simp [processEvent, handleMessageStop, hbuf, hp, isUsageFrame,
          reportedPromptTokens, h]
      · simp [processEvent, handleMessageStop, hbuf, hp, isUsageFrame,
          reportedPromptTokens, h, emitParsedCalls_filter_isUsage]
  · intro infl orig inTok outTok h
    simp [handleNonStreamingUsage, anthropicToOpenaiUsage, h]

/-- Counterexample to C2 as stated: with the token-inflation flag
enabled and a pre-dispatch estimate of 100 (upstream reported 50), the
usage chunk carries 436 = round(100 * 872000/200000) — neither the
estimate nor the upstream figure. -/
theorem c2_counterexample :
    ((processEvent
        (plainEnv { originalTokenCount := 100, tokenInflationEnabled := true })
        0 AnthropicEvent.messageStop
        {initStState with streamInputTokens := 50}).2.filter isUsageFrame)
      = [StreamFrame.usage 436 0]
    ∧ (436 : Nat) ≠ 100 ∧ (436 : Nat) ≠ 50 := by
  refine ⟨?_, by decide, by decide⟩
  decide

/-- Witness for the amended C2 theorem: inflation disabled, estimate 70,
upstream figure 50 — the usage chunk reports the estimate. -/
theorem c2_witness :
    ((processEvent
        (plainEnv { originalTokenCount := 70, tokenInflationEnabled := false })
        0 AnthropicEvent.messageStop
        {initStState with streamInputTokens := 50}).2.filter isUsageFrame)
      = [StreamFrame.usage 70 0]
    ∧ (handleNonStreamingUsage false 70 50 9).promptTokens = 70 := by
  constructor
  · have h1 := c2_usage_reports_estimate.1
      (plainEnv { originalTokenCount := 70, tokenInflationEnabled := false })
      0 {initStState with streamInputTokens := 50} (by decide)
    simpa using h1
  · have h2 := c2_usage_reports_estimate.2 false 70 50 9 (by decide)
    simpa using h2

/-- Every frame the start-gate emits is the role-start frame. -/
theorem mem_ensureStart (st : StState) (f : StreamFrame)
    (hf : f ∈ (ensureStart st).2) : f = StreamFrame.start := by
  unfold ensureStart at hf
  split at hf
  · simp at hf
  · simpa using hf

/-- C1: a `content_block_start` of type thinking, redacted_thinking or
compaction, a `thinking_delta` and a `compaction_delta` produce no
downstream content frame under any state — at most the one-time
role-start frame is emitted, never the block's content; and in the
non-streaming reshape, compaction blocks are dropped from the assembled
text. -/
theorem c1_suppressed_content_never_forwarded :
    (∀ (env : StreamEnv) (now : Nat) (st : StState) (ev : AnthropicEvent),
      isSuppressedEvent ev = true →
      ∀ f ∈ (processEvent env now ev st).2, f = StreamFrame.start)
    ∧ (∀ blocks : List RespBlock,
      anthropicToOpenaiContent blocks
        = anthropicToOpenaiContent
            (blocks.filter fun b => b.btype ≠ "compaction")) := by
  constructor
  · intro env now st ev hev f hf
    cases ev with
    | contentBlockStart block =>
      rcases block with _ | b
      · simp [isSuppressedEvent] at hev
      · simp only [isSuppressedEvent, Bool.or_eq_true, decide_eq_true_eq]
          at hev
        rcases hev with (h | h) | h <;>
          · simp only [processEvent, handleBlockStart, h] at hf
            simp at hf
            exact mem_ensureStart st f hf
    | contentBlockDelta d =>
      simp only [isSuppressedEvent, Bool.or_eq_true, decide_eq_true_eq] at hev
      rcases hev with h | h <;>
        simp [processEvent, handleContentBlockDelta, handleNonToolDelta, h]
          at hf
    | messageStart it => simp [isSuppressedEvent] at hev
    | contentBlockStop => simp [isSuppressedEvent] at hev
    | messageDelta ot => simp [isSuppressedEvent] at hev
    | messageStop => simp [isSuppressedEvent] at hev
    | other => simp [isSuppressedEvent] at hev
  · intro blocks
    induction blocks with
    | nil => rfl
    | cons b rest ih =>
      by_cases hb : b.btype = "compaction"
      · have hnone : blockToText b = none := by simp [blockToText, hb]
        simp [anthropicToOpenaiContent, List.filter_cons, hb,
          List.filterMap_cons, hnone]
        simpa [anthropicToOpenaiContent] using ih
      · rcases hbt : blockToText b with _ | t
        · simp [anthropicToOpenaiContent, List.filter_cons, hb,
            List.filterMap_cons, hbt]
          simpa [anthropicToOpenaiContent] using ih
        · simp [anthropicToOpenaiContent, List.filter_cons, hb,
            List.filterMap_cons, hbt]
          simpa [anthropicToOpenaiContent] using ih

/-- Witness for the C1 theorem: a concrete compaction delta emits
nothing, and a compaction block contributes nothing to the assembled
non-streaming text. -/
theorem c1_witness :
    ((processEvent
        (plainEnv { originalTokenCount := 0, tokenInflationEnabled := false })
        0
        (AnthropicEvent.contentBlockDelta
          { dtype := "compaction_delta", text := some (("S").toList),
            partialJson := none })
        initStState).2.all fun f => f = StreamFrame.start) = true
    ∧ anthropicToOpenaiContent
        [{ btype := "compaction", name := "", text := ("S").toList }]
      = anthropicToOpenaiContent
          (([{ btype := "compaction", name := "", text := ("S").toList }]
            : List RespBlock).filter fun b => b.btype ≠ "compaction") := by
  constructor
  · rw [List.all_eq_true]
    intro f hf
    have hform := c1_suppressed_content_never_forwarded.1
      (plainEnv { originalTokenCount := 0, tokenInflationEnabled := false })
      0 initStState
      (AnthropicEvent.contentBlockDelta
        { dtype := "compaction_delta", text := some (("S").toList),
          partialJson := none })
      (by decide) f hf
    simp [hform]
  · exact c1_suppressed_content_never_forwarded.2 _

/-- C9 (amended): once the cancellation flag is set, no downstream frame
is ever emitted, whatever upstream bytes arrive; processing after
`message_stop`, however, does continue (see the counterexample). -/
theorem c9_no_frames_after_cancellation (env : StreamEnv) (ps : ProcState)
    (cs : List (List Char)) (h : ps.core.cancelled = true) :
    (feedChunks env ps cs).2 = [] := by
  induction cs with
  | nil => rfl
  | cons c rest ih =>
    simp only [feedChunks]
    rw [show feedChunk env ps c = (ps, []) from by simp [feedChunk, h]]
    simpa using ih

/-- Counterexample to C9 as stated: a text delta arriving after
`message_stop` still produces downstream frames — the loop has no
stopped flag, so the role-start frame and a content frame follow the
`[DONE]` terminator. -/
theorem c9_counterexample :
    (processEvents
        (plainEnv { originalTokenCount := 0, tokenInflationEnabled := false })
        initStState 0 lateTextEvents).2
      = [StreamFrame.finish "stop", StreamFrame.usage 0 0, StreamFrame.done,
         StreamFrame.start, StreamFrame.content (("x").toList)]
    ∧ isContentFrame (StreamFrame.content (("x").toList)) = true := by
  refine ⟨?_, rfl⟩
  decide

/-- Witness for the amended C9 theorem: a cancelled stream emits nothing
for further upstream bytes. -/
theorem c9_witness :
    (feedChunks
      (plainEnv { originalTokenCount := 0, tokenInflationEnabled := false })
      { lineBuffer := [],
        core := { st := initStState, cancelled := true, linesProcessed := 0 } }
      [("data: T\n").toList]).2 = [] := by
  exact c9_no_frames_after_cancellation _ _ _ rfl

/-! Chunking invariance: the split of the byte stream never changes the
sequence of complete lines processed, hence never changes the frame
sequence. -/

/-- `splitNl` never returns the empty list. -/
theorem splitNl_ne_nil (s : List Char) : splitNl s ≠ [] := by
  cases s with
  | nil => simp [splitNl]
  | cons c cs =>
    simp only [splitNl]
    split
    · simp
    · split <;> simp

/-- No element of `splitNl s` contains a newline. -/
theorem no_nl_mem_splitNl (s : List Char) : ∀ l ∈ splitNl s, nlChar ∉ l := by
  induction s with
  | nil =>
    intro l hl
    simp only [splitNl, List.mem_singleton] at hl
    subst hl; simp
  | cons c cs ih =>
    intro l hl
    simp only [splitNl] at hl
    by_cases hc : c = nlChar
    · rw [if_pos hc] at hl
      rcases List.mem_cons.mp hl with rfl | hl
      · simp
      · exact ih l hl
    · rw [if_neg hc] at hl
      rcases hsp : splitNl cs with _ | ⟨h0, t⟩
      · exact absurd hsp (splitNl_ne_nil cs)
      · rw [hsp] at hl
        rcases List.mem_cons.mp hl with rfl | hl
        · intro hmem
          rcases List.mem_cons.mp hmem with h1 | h1
          · exact hc h1.symm
          · exact ih h0 (by rw [hsp]; exact List.mem_cons_self h0 t) h1
        · exact ih l (by rw [hsp]; exact List.mem_cons_of_mem h0 hl)

/-- A newline-free string splits into itself alone. -/
theorem splitNl_of_no_nl (s : List Char) (h : nlChar ∉ s) :
    splitNl s = [s] := by
  induction s with
  | nil => rfl
  | cons c cs ih =>
    have hc : ¬ c = nlChar := by
      intro hcc
      exact h (by rw [hcc]; exact List.mem_cons_self nlChar cs)
    have hcs : nlChar ∉ cs := fun hm => h (List.mem_cons_of_mem c hm)
    simp only [splitNl, if_neg hc, ih hcs]

/-- `dropLast` through a cons with a non-empty tail. -/
theorem dropLast_cons_ne {α : Type} (a : α) (l : List α) (h : l ≠ []) :
    (a :: l).dropLast = a :: l.dropLast := by
  cases l with
  | nil => exact absurd rfl h
  | cons b t => rfl

/-- `getLastD` through a cons with a non-empty tail. -/
theorem getLastD_cons_ne {α : Type} (a d : α) (l : List α) (h : l ≠ []) :
    (a :: l).getLastD d = l.getLastD d := by
  cases l with
  | nil => exact absurd rfl h
  | cons b t => simp [List.getLastD_cons]

/-- `getLastD` of an append with a non-empty right part. -/
theorem getLastD_append_ne {α : Type} (d : α) (l1 l2 : List α)
    (h : l2 ≠ []) : (l1 ++ l2).getLastD d = l2.getLastD d := by
  induction l1 with
  | nil => rfl
  | cons a t ih =>
    rw [List.cons_append, getLastD_cons_ne a d (t ++ l2) (by simp [h]), ih]

/-- The default-last element of a non-empty list is a member. -/
theorem getLastD_mem {α : Type} (d : α) (l : List α) (h : l ≠ []) :
    l.getLastD d ∈ l := by
  induction l with
  | nil => exact absurd rfl h
  | cons a t ih =>
    cases t with
    | nil => simp [List.getLastD_cons]
    | cons b t2 =>
      rw [getLastD_cons_ne a d (b :: t2) (by simp)]
      exact List.mem_cons_of_mem a (ih (by simp))

/-- Unfolding `splitNl` on a leading newline. -/
theorem splitNl_cons_nl (cs : List Char) :
    splitNl (nlChar :: cs) = [] :: splitNl cs := by
  simp [splitNl]

/-- Unfolding `splitNl` on a leading non-newline character. -/
theorem splitNl_cons_ne (c : Char) (cs : List Char) (hc : ¬ c = nlChar) :
    splitNl (c :: cs)
      = (c :: (splitNl cs).headD []) :: (splitNl cs).tail := by
  simp only [splitNl, if_neg hc]
  rcases hsp : splitNl cs with _ | ⟨h0, t⟩
  · exact absurd hsp (splitNl_ne_nil cs)
  · rfl

/-- The key append law of the line splitter: splitting `x ++ y` is
splitting `x`, keeping its complete lines, and re-splitting its held
back remainder glued to `y`. -/
theorem splitNl_append (x y : List Char) :
    splitNl (x ++ y)
      = (splitNl x).dropLast
        ++ splitNl ((splitNl x).getLastD [] ++ y) := by
  induction x with
  | nil => simp [splitNl]
  | cons c x ih =>
    by_cases hc : c = nlChar
    · subst hc
      rw [List.cons_append, splitNl_cons_nl, splitNl_cons_nl, ih,
        dropLast_cons_ne _ _ (splitNl_ne_nil x),
        getLastD_cons_ne _ _ _ (splitNl_ne_nil x)]
      rfl
    · rw [List.cons_append, splitNl_cons_ne c (x ++ y) hc,
        splitNl_cons_ne c x hc, ih]
      rcases hsp : splitNl x with _ | ⟨h0, t⟩
      · exact absurd hsp (splitNl_ne_nil x)
      · cases t with
        | nil =>
          simp only [hsp, List.headD_cons, List.tail_cons,
            List.dropLast_single, List.getLastD_cons, List.getLastD_nil,
            List.nil_append]
          rw [List.cons_append, splitNl_cons_ne c (h0 ++ y) hc]
        | cons h1 t2 =>
          simp only [hsp, List.headD_cons, List.tail_cons]
          rw [dropLast_cons_ne h0 (h1 :: t2) (by simp),
            dropLast_cons_ne (c :: h0) (h1 :: t2) (by simp),
            getLastD_cons_ne h0 [] (h1 :: t2) (by simp),
            getLastD_cons_ne (c :: h0) [] (h1 :: t2) (by simp)]
          rfl

/-- `runLines` over an append is the composition. -/
theorem runLines_append (env : StreamEnv) (core : StreamCore)
    (L1 L2 : List (List Char)) :
    runLines env core (L1 ++ L2)
      = ((runLines env (runLines env core L1).1 L2).1,
         (runLines env core L1).2
           ++ (runLines env (runLines env core L1).1 L2).2) := by
  induction L1 generalizing core with
  | nil => simp [runLines]
  | cons l ls ih => simp [runLines, ih]

/-- Line processing never changes the cancellation flag. -/
theorem processLine_cancelled (env : StreamEnv) (core : StreamCore)
    (l : List Char) : (processLine env core l).1.cancelled = core.cancelled := by
  simp only [processLine]
  split
  · rfl
  · split
    · rfl
    · split
      · rfl
      · split <;> rfl

/-- Running lines never changes the cancellation flag. -/
theorem runLines_cancelled (env : StreamEnv) (core : StreamCore)
    (L : List (List Char)) :
    (runLines env core L).1.cancelled = core.cancelled := by
  induction L generalizing core with
  | nil => rfl
  | cons l ls ih =>
    simp only [runLines]
    rw [ih (processLine env core l).1, processLine_cancelled]

/-- Feeding two chunks in sequence equals feeding their concatenation:
the rolling buffer turns any split into the same sequence of processed
complete lines. -/
theorem feedChunk_comp (env : StreamEnv) (ps : ProcState)
    (c1 c2 : List Char) (h : ps.core.cancelled = false) :
    feedChunk env ps (c1 ++ c2)
      = ((feedChunk env (feedChunk env ps c1).1 c2).1,
         (feedChunk env ps c1).2
           ++ (feedChunk env (feedChunk env ps c1).1 c2).2) := by
  have hcc : (runLines env ps.core
      (splitNl (ps.lineBuffer ++ c1)).dropLast).1.cancelled = false :=
    (runLines_cancelled env ps.core _).trans h
  have h1 : feedChunk env ps c1
      = ({ lineBuffer := (splitNl (ps.lineBuffer ++ c1)).getLastD [],
           core := (runLines env ps.core
             (splitNl (ps.lineBuffer ++ c1)).dropLast).1 },
         (runLines env ps.core
           (splitNl (ps.lineBuffer ++ c1)).dropLast).2) := by
    simp only [feedChunk, h, Bool.false_eq_true, if_false]
  have h2 : feedChunk env (feedChunk env ps c1).1 c2
      = ({ lineBuffer :=
             (splitNl ((splitNl (ps.lineBuffer ++ c1)).getLastD [] ++ c2)).getLastD [],
           core := (runLines env
             (runLines env ps.core (splitNl (ps.lineBuffer ++ c1)).dropLast).1
             (splitNl ((splitNl (ps.lineBuffer ++ c1)).getLastD []
               ++ c2)).dropLast).1 },
         (runLines env
           (runLines env ps.core (splitNl (ps.lineBuffer ++ c1)).dropLast).1
           (splitNl ((splitNl (ps.lineBuffer ++ c1)).getLastD []
             ++ c2)).dropLast).2) := by
    rw [h1]
    simp only [feedChunk, hcc, Bool.false_eq_true, if_false]
  have hne2 : splitNl ((splitNl (ps.lineBuffer ++ c1)).getLastD [] ++ c2)
      ≠ [] := splitNl_ne_nil _
  have hsplit : splitNl (ps.lineBuffer ++ (c1 ++ c2))
      = (splitNl (ps.lineBuffer ++ c1)).dropLast
        ++ splitNl ((splitNl (ps.lineBuffer ++ c1)).getLastD [] ++ c2) := by
    rw [← List.append_assoc, splitNl_append]
  have hlhs : feedChunk env ps (c1 ++ c2)
      = ({ lineBuffer :=
             (splitNl ((splitNl (ps.lineBuffer ++ c1)).getLastD [] ++ c2)).getLastD [],
           core := (runLines env
             (runLines env ps.core (splitNl (ps.lineBuffer ++ c1)).dropLast).1
             (splitNl ((splitNl (ps.lineBuffer ++ c1)).getLastD []
               ++ c2)).dropLast).1 },
         (runLines env ps.core (splitNl (ps.lineBuffer ++ c1)).dropLast).2
           ++ (runLines env
             (runLines env ps.core (splitNl (ps.lineBuffer ++ c1)).dropLast).1
             (splitNl ((splitNl (ps.lineBuffer ++ c1)).getLastD []
               ++ c2)).dropLast).2) := by
    simp only [feedChunk, h, Bool.false_eq_true, if_false]
    rw [hsplit, List.dropLast_append_of_ne_nil _ hne2,
      getLastD_append_ne _ _ _ hne2, runLines_append]
  rw [hlhs, h2, h1]

/-- Whole-stream processing only depends on the concatenation of the
chunks: feeding a chunk list equals feeding its flattening as a single
chunk. -/
theorem feedChunks_eq_flatten (env : StreamEnv) (cs : List (List Char))
    (ps : ProcState) (h : ps.core.cancelled = false)
    (hb : nlChar ∉ ps.lineBuffer) :
    feedChunks env ps cs = feedChunk env ps cs.flatten := by
  induction cs generalizing ps with
  | nil =>
    have hsp : splitNl ps.lineBuffer = [ps.lineBuffer] := splitNl_of_no_nl _ hb
    simp only [feedChunks, List.flatten_nil, feedChunk, h, Bool.false_eq_true,
      if_false, List.append_nil, hsp, List.dropLast_single, runLines,
      List.getLastD_cons, List.getLastD_nil]
  | cons c cs ih =>
    rw [List.flatten_cons, feedChunk_comp env ps c cs.flatten h]
    have hc1 : (feedChunk env ps c).1.core.cancelled = false := by
      simp only [feedChunk, h, Bool.false_eq_true, if_false]
      exact (runLines_cancelled env ps.core _).trans h
    have hb1 : nlChar ∉ (feedChunk env ps c).1.lineBuffer := by
      simp only [feedChunk, h, Bool.false_eq_true, if_false]
      exact no_nl_mem_splitNl (ps.lineBuffer ++ c) _
        (getLastD_mem _ _ (splitNl_ne_nil _))
    simp only [feedChunks]
    rw [ih (feedChunk env ps c).1 hc1 hb1]

/-- C4: for a fixed upstream byte stream, every chunking produces the
identical downstream frame sequence (and the identical final state):
the line buffer holds back the final possibly-incomplete line and only
complete lines are processed, so the output depends only on the
concatenation of the chunks. -/
theorem c4_chunking_invariance (env : StreamEnv)
    (cs1 cs2 : List (List Char)) (h : cs1.flatten = cs2.flatten) :
    feedChunks env initProcState cs1 = feedChunks env initProcState cs2 := by
  rw [feedChunks_eq_flatten env cs1 initProcState rfl (by simp [initProcState]),
    feedChunks_eq_flatten env cs2 initProcState rfl (by simp [initProcState]),
    h]

/-- Witness for the C4 theorem: the same two upstream frames chunked
whole versus split mid-frame. -/
theorem c4_witness :
    witnessChunksA.flatten = witnessChunksB.flatten
    ∧ feedChunks witnessEnv initProcState witnessChunksA
      = feedChunks witnessEnv initProcState witnessChunksB := by
  refine ⟨by decide, ?_⟩
  exact c4_chunking_invariance witnessEnv witnessChunksA witnessChunksB
    (by decide)

end Ccproxy